import Mathlib

/-!
# Verification of `onemod_diagnostics.figure.plot_result`

This file gives a shallow embedding of the single source file
`src/onemod_diagnostics/figure/plot_result.py` and proves properties of it.

Modelling conventions:

* Cell values (`EVal`) are finite integers, positive/negative infinity, or
  strings.  Finite numerics are modelled as `Int` (no arithmetic beyond
  comparison and clipping occurs in the source, so float rounding is
  irrelevant; the special values `inf`/`-inf` are modelled exactly).
* A pandas `DataFrame` is a list of columns (name, dtype) plus a list of rows.
* Python dataframes are heap objects; calls such as `df.query(...)` return
  fresh frames while `df[y] = ...` mutates in place.  To make the mutation
  observable we thread an explicit `Store` (list of frames); frame handles are
  indices into the store.  The caller's dataframe is frame `0`.
* matplotlib axes are modelled by their title, artist list, scale names and
  y-limits.  Autoscaling is modelled as the min/max of the finite y-values of
  all artists (matplotlib ignores non-finite values when autoscaling; margins
  are not modelled since no claim depends on their exact size).
* seaborn `Plot(...).facet(col=..., row=...)` builds one axes per facet level
  (full row-level x col-level grid when both are given) and titles each axes
  with the level values joined by " | ", column value first.  Facet level
  order is modelled with `List.dedup` (order of regions is immaterial to every
  property proved here).  Axis sharing (`share_options`) only links axis
  ranges between regions and is recorded but not otherwise modelled.
-/

set_option autoImplicit false

namespace PlotResult

/-- Errors a call can raise (Python exceptions). -/
inductive Err where
  | keyError (k : String)
  | undefinedVariable (k : String)
  | valueError (msg : String)
  | attributeError (a : String)
  | nameError (n : String)
  | indexError
deriving DecidableEq, Repr

instance {ε α : Type} [DecidableEq ε] [DecidableEq α] :
    DecidableEq (Except ε α) := fun a b =>
  match a, b with
  | .error e, .error f =>
    if h : e = f then isTrue (by rw [h]) else isFalse (by intro hh; cases hh; exact h rfl)
  | .ok u, .ok v =>
    if h : u = v then isTrue (by rw [h]) else isFalse (by intro hh; cases hh; exact h rfl)
  | .error _, .ok _ => isFalse (by intro hh; cases hh)
  | .ok _, .error _ => isFalse (by intro hh; cases hh)

/-- A cell value: finite number, `inf`, `-inf`, or a string. -/
inductive EVal where
  | num (n : Int)
  | posInf
  | negInf
  | str (s : String)
deriving DecidableEq, Repr

/-- Column dtypes distinguished by the model. -/
inductive Dtype where
  | numT
  | strT
deriving DecidableEq, Repr

/-- Decimal digits of a natural number (fuel-based so it reduces in the kernel). -/
def natRenderAux : Nat → Nat → List Char
  | 0, _ => []
  | fuel + 1, n =>
    if n < 10 then [Char.ofNat (48 + n)]
    else natRenderAux fuel (n / 10) ++ [Char.ofNat (48 + n % 10)]

/-- Decimal rendering of a natural number. -/
def natRender (n : Nat) : String := ⟨natRenderAux (n + 1) n⟩

/-- Decimal rendering of an integer (Python `str`). -/
def intRender : Int → String
  | .ofNat n => natRender n
  | .negSucc m => ⟨'-' :: natRenderAux (m + 2) (m + 1)⟩

/-- Python `str` of a cell value, as used for facet labels. -/
def render : EVal → String
  | .num n => intRender n
  | .posInf => "inf"
  | .negInf => "-inf"
  | .str s => s

/-- Value of a decimal digit character. -/
def digitVal (c : Char) : Option Nat :=
  if '0' ≤ c ∧ c ≤ '9' then some (c.toNat - 48) else none

/-- Parse a nonempty digit string. -/
def parseNatAux : List Char → Nat → Option Nat
  | [], acc => some acc
  | c :: cs, acc =>
    match digitVal c with
    | some d => parseNatAux cs (acc * 10 + d)
    | none => none

/-- Parse an integer numeral. -/
def parseIntChars : List Char → Option Int
  | [] => none
  | '-' :: cs =>
    match cs with
    | [] => none
    | _ => (parseNatAux cs 0).map (fun n => -(n : Int))
  | cs => (parseNatAux cs 0).map Int.ofNat

/-- Cast a facet-label fragment back to a column dtype
(pandas `.astype` on the values frame; failures raise `ValueError`). -/
def castValue (d : Dtype) (s : String) : Except Err EVal :=
  match d with
  | .strT => .ok (.str s)
  | .numT =>
    if s = "inf" then .ok .posInf
    else if s = "-inf" then .ok .negInf
    else
      match parseIntChars s.data with
      | some n => .ok (.num n)
      | none => .error (.valueError s)

/-- The facet-title separator used by the layout engine. -/
def sepChars : List Char := [' ', '|', ' ']

/-- Join title parts with " | " (seaborn's facet title for a region). -/
def joinSep : List String → String
  | [] => ""
  | [s] => s
  | s :: rest => s ++ ⟨sepChars⟩ ++ joinSep rest

/-- Split a character list at every occurrence of " | " (Python `str.split`). -/
def splitSepAux : List Char → List Char → List (List Char)
  | [], acc => [acc.reverse]
  | ' ' :: '|' :: ' ' :: rest, acc => acc.reverse :: splitSepAux rest []
  | c :: rest, acc => splitSepAux rest (c :: acc)

/-- Split a title on " | " (Python `title.split(" | ")`). -/
def splitSep (s : String) : List String :=
  (splitSepAux s.data []).map (fun cs => ⟨cs⟩)

/-- A tabular dataset: named, typed columns and a list of rows. -/
structure DataFrame where
  cols : List String
  dtypes : List Dtype
  rows : List (List EVal)
deriving DecidableEq, Repr

/-- Index of a name in a column list. -/
def colIdxAux : List String → String → Option Nat
  | [], _ => none
  | c :: cs, k => if c = k then some 0 else (colIdxAux cs k).map (fun i => i + 1)

/-- Index of a column, if present. -/
def DataFrame.colIdx (df : DataFrame) (c : String) : Option Nat :=
  colIdxAux df.cols c

/-- Column lookup `df[c]`, raising `KeyError` when the column is missing. -/
def DataFrame.getColVals (df : DataFrame) (c : String) : Except Err (List EVal) :=
  match df.colIdx c with
  | some i => .ok (df.rows.map (fun row => row.getD i (.num 0)))
  | none => .error (.keyError c)

/-- Dtype of a column (`data[c].dtypes`), raising `KeyError` when missing. -/
def DataFrame.dtypeOf (df : DataFrame) (c : String) : Except Err Dtype :=
  match df.colIdx c with
  | some i => .ok (df.dtypes.getD i .strT)
  | none => .error (.keyError c)

/-- Value of one row in column `c`, with a junk default (total helper;
only used once the column is known to exist). -/
def DataFrame.rowValD (df : DataFrame) (c : String) (row : List EVal) : EVal :=
  match df.colIdx c with
  | some i => row.getD i (.num 0)
  | none => .num 0

/-- Does a row match a facet-key combination exactly
(the `k == repr(v)` conjunction passed to `data.query`)? -/
def matchCombo (df : DataFrame) (keys : List String) (combo : List EVal)
    (row : List EVal) : Bool :=
  (keys.zip combo).all (fun kv => df.rowValD kv.1 row == kv.2)

/-- `data.query("k1 == v1 & k2 == v2 ...")`: exact-match filter, returning a
fresh frame.  Raises `UndefinedVariableError` when a key is missing. -/
def DataFrame.queryCombo (df : DataFrame) (keys : List String)
    (combo : List EVal) : Except Err DataFrame :=
  if keys.all (fun k => (df.colIdx k).isSome) then
    .ok { df with rows := df.rows.filter (matchCombo df keys combo) }
  else .error (.undefinedVariable "facet key")

/-- Is a value positive or negative infinity? -/
def EVal.isInf : EVal → Bool
  | .posInf => true
  | .negInf => true
  | _ => false

/-- `df.query(f"{y} in [-inf, inf]")`: rows whose `y` value is infinite,
as a fresh frame. -/
def DataFrame.queryInf (df : DataFrame) (y : String) : Except Err DataFrame :=
  match df.colIdx y with
  | some i => .ok { df with rows := df.rows.filter (fun row => (row.getD i (.num 0)).isInf) }
  | none => .error (.undefinedVariable y)

/-- `reset_index(drop=True)`: a fresh copy with the same contents
(indices are not modelled). -/
def DataFrame.resetIndex (df : DataFrame) : DataFrame := df

/-- Clip a value to `[lo, hi]` (pandas `Series.clip`). -/
def clipVal (lo hi : Int) : EVal → EVal
  | .num n => .num (max lo (min hi n))
  | .posInf => .num hi
  | .negInf => .num lo
  | .str s => .str s

/-- `df[y] = df[y].clip(lo, hi)`: in-place update of column `y`. -/
def DataFrame.setColClip (df : DataFrame) (y : String) (lo hi : Int) :
    Except Err DataFrame :=
  match df.colIdx y with
  | some i => .ok { df with
      rows := df.rows.map (fun row => row.set i (clipVal lo hi (row.getD i (.num 0)))) }
  | none => .error (.keyError y)

/-- The heap of live dataframes; the caller's frame is index `0`. -/
abbrev Store := List DataFrame

/-- Dereference a frame handle. -/
def getFrame (s : Store) (i : Nat) : Except Err DataFrame :=
  match s.get? i with
  | some df => .ok df
  | none => .error .indexError

/-- A per-series style-option bag (kwargs forwarded to matplotlib). -/
abbrev Style := List (String × String)

/-- `options.get(y, {})` on a style dictionary. -/
def optGet (opts : List (String × Style)) (y : String) : Style :=
  match opts.find? (fun p => p.1 == y) with
  | some p => p.2
  | none => []

/-- A rendered artist: one `ax.scatter` or `ax.plot` call. -/
structure Artist where
  label : String
  pts : List (EVal × EVal)
  isLine : Bool
  style : Style
deriving DecidableEq, Repr

/-- A subplot region. -/
structure Axes where
  title : String
  artists : List Artist
  xscale : String
  yscale : String
  ylim : Int × Int
deriving DecidableEq, Repr

/-- A fresh axes created by the layout engine. -/
def mkAxes (t : String) : Axes :=
  { title := t, artists := [], xscale := "linear", yscale := "linear", ylim := (0, 1) }

/-- The finite numeric y-values among a list of points. -/
def finiteYs (pts : List (EVal × EVal)) : List Int :=
  pts.filterMap (fun p => match p.2 with | .num n => some n | _ => none)

/-- Autoscaled y-limits: min/max of all finite y-data of the artists,
`(0, 1)` when there is none (matplotlib ignores non-finite values). -/
def autoscaleY (artists : List Artist) : Int × Int :=
  match (artists.map (fun a => finiteYs a.pts)).flatten with
  | [] => (0, 1)
  | v :: vs => (vs.foldl min v, vs.foldl max v)

/-- Append an artist and re-autoscale the y-axis. -/
def addArtist (ax : Axes) (a : Artist) : Axes :=
  { ax with artists := ax.artists ++ [a], ylim := autoscaleY (ax.artists ++ [a]) }

/-- `ax.scatter(df[x], df[y], label=y, **opts)`. -/
def scatterCol (df : DataFrame) (ax : Axes) (x y : String) (st : Style) :
    Except Err Axes := do
  let xs ← df.getColVals x
  let ys ← df.getColVals y
  .ok (addArtist ax { label := y, pts := xs.zip ys, isLine := false, style := st })

/-- `ax.plot(df[x], df[y], label=y, **opts)`. -/
def plotCol (df : DataFrame) (ax : Axes) (x y : String) (st : Style) :
    Except Err Axes := do
  let xs ← df.getColVals x
  let ys ← df.getColVals y
  .ok (addArtist ax { label := y, pts := xs.zip ys, isLine := true, style := st })

/-- `getattr(ax, f"set_{name}scale")(scale)` for each entry of `scale_options`;
an unknown `name` raises `AttributeError`.  `set_yscale` re-runs the y
autoscaler. -/
def applyScales (ax : Axes) : List (String × String) → Except Err Axes
  | [] => .ok ax
  | (n, sc) :: rest =>
    if n = "x" then applyScales { ax with xscale := sc } rest
    else if n = "y" then
      applyScales { ax with yscale := sc, ylim := autoscaleY ax.artists } rest
    else .error (.attributeError n)

/-- Is an artist label shown in the legend (matplotlib hides empty labels and
labels opening with an underscore)? -/
def visibleLabel (s : String) : Bool :=
  match s.data with
  | [] => false
  | c :: _ => c ≠ '_'

/-- `ax.get_legend_handles_labels()`. -/
def getHandlesLabels (ax : Axes) : List Artist × List String :=
  let hs := ax.artists.filter (fun a => visibleLabel a.label)
  (hs, hs.map (fun a => a.label))

/-- The single figure-level legend. -/
structure LegendSpec where
  handles : List Artist
  labels : List String
  ncol : Nat
  loc : String
deriving DecidableEq, Repr

/-- Figure construction options (`fig_options`). -/
structure FigOptions where
  figsize : Option (Int × Int) := none
deriving DecidableEq, Repr

/-- The rendered figure. -/
structure Figure where
  axes : List Axes
  legend : Option LegendSpec
  tightLayout : Bool
  shareOpts : List (String × Bool)
  figOpts : FigOptions
deriving DecidableEq, Repr

/-- Facet configuration (`facet_options`): recognized keys only. -/
structure FacetOptions where
  col : Option String := none
  row : Option String := none
  wrap : Option Nat := none
deriving DecidableEq, Repr

/-- `[facet_options.get(key) for key in ["col", "row"] if ... is not None]`. -/
def facetBy (fo : FacetOptions) : List String :=
  (match fo.col with | some c => [c] | none => []) ++
    (match fo.row with | some r => [r] | none => [])

/-- Facet levels of one column: its distinct values
(region order is immaterial to the properties proved here). -/
def levelsOf (vals : List EVal) : List EVal := vals.dedup

/-- The facet-key combination of every region, in region order.  With both
`row` and `col` configured the layout engine builds the full grid of
row-levels x col-levels (also for combinations absent from the data); each
combination is listed `[col-value, row-value]`, matching the title order. -/
def gridCombos (colLv rowLv : List EVal) : List (List EVal) :=
  (rowLv.product colLv).map (fun p => [p.2, p.1])

/-- `so.Plot(data, x=x).facet(**facet_options).share(**share_options).on(fig).plot()`:
one axes per facet combination, titled with the rendered level values joined
by " | " (column value first); a single untitled axes without faceting.
Raises when `x` or a facet key is not a column of the data. -/
def soPlotFacet (data : DataFrame) (x : String) (fo : FacetOptions) :
    Except Err (List Axes) := do
  let _ ← data.getColVals x
  match fo.col, fo.row with
  | none, none => .ok [mkAxes ""]
  | some c, none => do
    let cv ← data.getColVals c
    .ok ((levelsOf cv).map (fun v => mkAxes (render v)))
  | none, some r => do
    let rv ← data.getColVals r
    .ok ((levelsOf rv).map (fun v => mkAxes (render v)))
  | some c, some r => do
    let cv ← data.getColVals c
    let rv ← data.getColVals r
    .ok ((gridCombos (levelsOf cv) (levelsOf rv)).map
      (fun combo => mkAxes (joinSep (combo.map render))))

/-- Effectful map over a list, with structural recursion. -/
def exceptMapM {α β : Type} (f : α → Except Err β) : List α → Except Err (List β)
  | [] => .ok []
  | a :: as => do
    let b ← f a
    let bs ← exceptMapM f as
    .ok (b :: bs)

/-- Recover one region's facet-key combination from its title:
split on " | ", check the part count against the key count
(the `pd.DataFrame(data=..., columns=by)` shape check), and cast each part
back to the original column dtype (`.astype`). -/
def recoverCombo (dts : List Dtype) (title : String) : Except Err (List EVal) :=
  let parts := splitSep title
  if parts.length = dts.length then
    exceptMapM (fun pd => castValue pd.2 pd.1) (parts.zip dts)
  else .error (.valueError "columns passed, passed data had different length")

/-- The `values` frame: every region's recovered facet-key combination. -/
def recoverCombos (dts : List Dtype) (axes : List Axes) :
    Except Err (List (List EVal)) :=
  exceptMapM (fun ax => recoverCombo dts ax.title) axes

/-- `data.query(...)` once per recovered combination, pushing each filtered
copy onto the store and returning its handle. -/
def pushQueries (s : Store) (data : DataFrame) (keys : List String) :
    List (List EVal) → Except Err (List Nat × Store)
  | [] => .ok ([], s)
  | c :: cs => do
    let sub ← data.queryCombo keys c
    let res ← pushQueries (s ++ [sub]) data keys cs
    .ok (s.length :: res.1, res.2)

/-- Lines 92-99 of the source: recover the facet values of every region and
filter the original dataset into one subset handle per region. -/
def buildSubsets (s : Store) (data : DataFrame) (keys : List String)
    (axes : List Axes) : Except Err (List Nat × Store) := do
  let dts ← exceptMapM data.dtypeOf keys
  let combos ← recoverCombos dts axes
  pushQueries s data keys combos

/-- The first rendering loop body for one region: scatter every `y_dots`
column, then plot every `y_line` column. -/
def drawCols (df : DataFrame) (x : String) (opts : List (String × Style))
    (line : Bool) : Axes → List String → Except Err Axes
  | ax, [] => .ok ax
  | ax, y :: ys => do
    let ax1 ← if line then plotCol df ax x y (optGet opts y)
      else scatterCol df ax x y (optGet opts y)
    drawCols df x opts line ax1 ys

/-- One region of the first rendering loop. -/
def drawAx (s : Store) (x : String) (yDots yLine : List String)
    (dotsOpts lineOpts : List (String × Style)) (p : Axes × Nat) :
    Except Err Axes := do
  let df ← getFrame s p.2
  let ax1 ← drawCols df x dotsOpts false p.1 yDots
  drawCols df x lineOpts true ax1 yLine

/-- The first rendering loop (`for ax, df in zip(axes, data_list)`). -/
def drawAll (s : Store) (x : String) (yDots yLine : List String)
    (dotsOpts lineOpts : List (String × Style)) :
    List (Axes × Nat) → Except Err (List Axes)
  | [] => .ok []
  | p :: ps => do
    let ax ← drawAx s x yDots yLine dotsOpts lineOpts p
    let rest ← drawAll s x yDots yLine dotsOpts lineOpts ps
    .ok (ax :: rest)

/-- The inner loop of the infinite-value block.  Mirrors the source exactly:
the subset variable `df` is reassigned by the filtered copy on every
iteration, the filtered copy's `y` column is clipped in place, and a marker
artist is added when the filtered copy is nonempty. -/
def infLoop (x : String) (dotsOpts : List (String × Style)) (ylim : Int × Int) :
    Store → Axes × Nat → List String → Except Err (Axes × Nat × Store)
  | s, p, [] => .ok (p.1, p.2, s)
  | s, p, y :: ys => do
    let df ← getFrame s p.2
    let filtered ← df.queryInf y
    let sub := filtered.resetIndex
    let s1 := s ++ [sub]
    let newId := s.length
    if sub.rows.isEmpty then
      infLoop x dotsOpts ylim s1 (p.1, newId) ys
    else do
      let df1 ← getFrame s1 newId
      let clipped ← df1.setColClip y ylim.1 ylim.2
      let s2 := s1.set newId clipped
      let df2 ← getFrame s2 newId
      let ax1 ← scatterCol df2 p.1 x y (optGet dotsOpts y)
      infLoop x dotsOpts ylim s2 (ax1, newId) ys

/-- The second loop body for one region: apply the scale overrides, capture
the y-limits, re-render infinite `y_dots` values clipped to the captured
limits, then restore the captured limits (`ax.set_ylim(ylim)`). -/
def infBlockAx (scaleOpts : List (String × String)) (x : String)
    (yDots : List String) (dotsOpts : List (String × Style)) (s : Store)
    (p : Axes × Nat) : Except Err (Axes × Store) := do
  let ax1 ← applyScales p.1 scaleOpts
  let ylim := ax1.ylim
  let res ← infLoop x dotsOpts ylim s (ax1, p.2) yDots
  .ok ({ res.1 with ylim := ylim }, res.2.2)

/-- The second rendering loop (`# plot posinf and neginf`). -/
def infAll (scaleOpts : List (String × String)) (x : String)
    (yDots : List String) (dotsOpts : List (String × Style)) :
    Store → List (Axes × Nat) → Except Err (List Axes × Store)
  | s, [] => .ok ([], s)
  | s, p :: ps => do
    let r ← infBlockAx scaleOpts x yDots dotsOpts s p
    let rest ← infAll scaleOpts x yDots dotsOpts r.2 ps
    .ok (r.1 :: rest.1, rest.2)

/-- The whole function `plot_result`.  Returns the figure together with the
final frame store (the caller's dataframe is frame `0`). -/
def plot_result (data : DataFrame) (x : String) (yDots yLine : List String)
    (dotsOpts lineOpts : List (String × Style)) (fo : FacetOptions)
    (shareOpts : List (String × Bool)) (scaleOpts : List (String × String))
    (figOpts : FigOptions) : Except Err (Figure × Store) := do
  let axes ← soPlotFacet data x fo
  let keys := facetBy fo
  let s0 : Store := [data]
  let idsS ← if keys.isEmpty then .ok ([0], s0) else buildSubsets s0 data keys axes
  let pairs := axes.zip idsS.1
  let axes1 ← drawAll idsS.2 x yDots yLine dotsOpts lineOpts pairs
  let pairs2 := axes1.zip idsS.1
  let res ← infAll scaleOpts x yDots dotsOpts idsS.2 pairs2
  match res.1.getLast? with
  | none => .error (.nameError "ax")
  | some lastAx =>
    let hl := getHandlesLabels lastAx
    .ok ({ axes := res.1,
           legend := some { handles := hl.1, labels := hl.2,
                            ncol := hl.1.length, loc := "lower center" },
           tightLayout := true, shareOpts := shareOpts, figOpts := figOpts },
         res.2)

/-! ## Basic lemmas about the embedding -/

theorem colIdxAux_isSome_iff (cs : List String) (k : String) :
    (colIdxAux cs k).isSome = true ↔ k ∈ cs := by
  induction cs with
  | nil => simp [colIdxAux]
  | cons c cs ih =>
    by_cases h : c = k
    · subst h; simp [colIdxAux]
    · simp [colIdxAux, h, ih, Ne.symm h]

theorem colIdx_isSome_iff (df : DataFrame) (k : String) :
    ((df.colIdx k).isSome = true) ↔ k ∈ df.cols := by
  unfold DataFrame.colIdx; exact colIdxAux_isSome_iff df.cols k

theorem getColVals_ok_iff (df : DataFrame) (c : String) :
    (∃ vs, df.getColVals c = .ok vs) ↔ c ∈ df.cols := by
  rw [← colIdx_isSome_iff]
  unfold DataFrame.getColVals
  cases h : df.colIdx c <;> simp [h]

theorem getColVals_length (df : DataFrame) (c : String) (vs : List EVal)
    (h : df.getColVals c = .ok vs) : vs.length = df.rows.length := by
  unfold DataFrame.getColVals at h
  cases hi : df.colIdx c <;> rw [hi] at h <;> simp at h
  subst h; simp

/-- `plot_result` succeeds only through this exact chain of stages. -/
theorem plot_result_anatomy
    (data : DataFrame) (x : String) (yDots yLine : List String)
    (dotsOpts lineOpts : List (String × Style)) (fo : FacetOptions)
    (shareOpts : List (String × Bool)) (scaleOpts : List (String × String))
    (figOpts : FigOptions) (fig : Figure) (st : Store)
    (h : plot_result data x yDots yLine dotsOpts lineOpts fo shareOpts
      scaleOpts figOpts = .ok (fig, st)) :
    ∃ axes ids s1 axes1 axes2 s2 lastAx,
      soPlotFacet data x fo = .ok axes ∧
      (((facetBy fo).isEmpty = true ∧ ids = [0] ∧ s1 = [data]) ∨
        ((facetBy fo).isEmpty = false ∧
          buildSubsets [data] data (facetBy fo) axes = .ok (ids, s1))) ∧
      drawAll s1 x yDots yLine dotsOpts lineOpts (axes.zip ids) = .ok axes1 ∧
      infAll scaleOpts x yDots dotsOpts s1 (axes1.zip ids) = .ok (axes2, s2) ∧
      axes2.getLast? = some lastAx ∧
      fig = { axes := axes2,
              legend := some { handles := (getHandlesLabels lastAx).1,
                               labels := (getHandlesLabels lastAx).2,
                               ncol := (getHandlesLabels lastAx).1.length,
                               loc := "lower center" },
              tightLayout := true, shareOpts := shareOpts,
              figOpts := figOpts } ∧
      st = s2 := by
  unfold plot_result at h
  cases hax : soPlotFacet data x fo with
  | error e => rw [hax] at h; simp [Bind.bind, Except.bind] at h
  | ok axes =>
    rw [hax] at h
    simp only [Bind.bind, Except.bind] at h
    cases hkeys : (facetBy fo).isEmpty with
    | true =>
      simp only [hkeys, if_pos] at h
      cases hdr : drawAll [data] x yDots yLine dotsOpts lineOpts (axes.zip [0]) with
      | error e => rw [hdr] at h; simp at h
      | ok axes1 =>
        rw [hdr] at h
        simp only [] at h
        cases hinf : infAll scaleOpts x yDots dotsOpts [data] (axes1.zip [0]) with
        | error e => rw [hinf] at h; simp at h
        | ok r =>
          obtain ⟨axes2, s2⟩ := r
          rw [hinf] at h
          simp only [] at h
          cases hlast : axes2.getLast? with
          | none => rw [hlast] at h; simp at h
          | some lastAx =>
            rw [hlast] at h
            simp only [Except.ok.injEq, Prod.mk.injEq] at h
            exact ⟨axes, [0], [data], axes1, axes2, s2, lastAx, rfl,
              Or.inl ⟨rfl, rfl, rfl⟩, hdr, hinf, hlast, h.1.symm, h.2.symm⟩
    | false =>
      simp only [hkeys, if_neg, Bool.false_eq_true, not_false_eq_true] at h
      cases hbs : buildSubsets [data] data (facetBy fo) axes with
      | error e => rw [hbs] at h; simp at h
      | ok p =>
        obtain ⟨ids, s1⟩ := p
        rw [hbs] at h
        simp only [] at h
        cases hdr : drawAll s1 x yDots yLine dotsOpts lineOpts (axes.zip ids) with
        | error e => rw [hdr] at h; simp at h
        | ok axes1 =>
          rw [hdr] at h
          simp only [] at h
          cases hinf : infAll scaleOpts x yDots dotsOpts s1 (axes1.zip ids) with
          | error e => rw [hinf] at h; simp at h
          | ok r =>
            obtain ⟨axes2, s2⟩ := r
            rw [hinf] at h
            simp only [] at h
            cases hlast : axes2.getLast? with
            | none => rw [hlast] at h; simp at h
            | some lastAx =>
              rw [hlast] at h
              simp only [Except.ok.injEq, Prod.mk.injEq] at h
              exact ⟨axes, ids, s1, axes1, axes2, s2, lastAx, rfl,
                Or.inr ⟨rfl, hbs⟩, hdr, hinf, hlast, h.1.symm, h.2.symm⟩

/-! ## Store preservation: existing frames are never overwritten -/

/-- `s'` extends `s`: every frame handle of `s` still dereferences to the
same frame in `s'`. -/
def StorePres (s s' : Store) : Prop :=
  s.length ≤ s'.length ∧ ∀ i, i < s.length → s'.get? i = s.get? i

theorem StorePres.refl (s : Store) : StorePres s s := ⟨le_refl _, fun _ _ => rfl⟩

theorem StorePres.trans {s t u : Store} (h1 : StorePres s t) (h2 : StorePres t u) :
    StorePres s u :=
  ⟨le_trans h1.1 h2.1, fun i hi => (h2.2 i (lt_of_lt_of_le hi h1.1)).trans (h1.2 i hi)⟩

theorem StorePres.append (s t : Store) : StorePres s (s ++ t) :=
  ⟨by simp, fun i hi => List.get?_append hi⟩

theorem StorePres.append_set (s : Store) (a b : DataFrame) :
    StorePres s ((s ++ [a]).set s.length b) :=
  ⟨by simp, fun i hi => by
    rw [List.get?_set_ne b (s ++ [a]) (by omega)]
    exact List.get?_append hi⟩

theorem infLoop_pres (x : String) (dotsOpts : List (String × Style))
    (ylim : Int × Int) :
    ∀ (ys : List String) (s : Store) (p : Axes × Nat) r,
      infLoop x dotsOpts ylim s p ys = .ok r → StorePres s r.2.2 := by
  intro ys
  induction ys with
  | nil => intro s p r h; cases h; exact StorePres.refl s
  | cons y ys ih =>
    intro s p r h
    unfold infLoop at h
    cases hdf : getFrame s p.2 with
    | error e => rw [hdf] at h; simp [Bind.bind, Except.bind] at h
    | ok df =>
      rw [hdf] at h
      simp only [Bind.bind, Except.bind] at h
      cases hq : df.queryInf y with
      | error e => rw [hq] at h; simp at h
      | ok filtered =>
        rw [hq] at h
        simp only [] at h
        by_cases hemp : filtered.resetIndex.rows.isEmpty = true
        · rw [if_pos hemp] at h
          exact (StorePres.append s _).trans (ih _ _ _ h)
        · rw [if_neg hemp] at h
          cases hg1 : getFrame (s ++ [filtered.resetIndex]) s.length with
          | error e => rw [hg1] at h; simp at h
          | ok df1 =>
            rw [hg1] at h
            simp only [] at h
            cases hc : df1.setColClip y ylim.1 ylim.2 with
            | error e => rw [hc] at h; simp at h
            | ok clipped =>
              rw [hc] at h
              simp only [] at h
              cases hg2 : getFrame ((s ++ [filtered.resetIndex]).set s.length clipped)
                  s.length with
              | error e => rw [hg2] at h; simp at h
              | ok df2 =>
                rw [hg2] at h
                simp only [] at h
                cases hsc : scatterCol df2 p.1 x y (optGet dotsOpts y) with
                | error e => rw [hsc] at h; simp at h
                | ok ax1 =>
                  rw [hsc] at h
                  simp only [] at h
                  exact (StorePres.append_set s filtered.resetIndex clipped).trans
                    (ih _ _ _ h)

theorem infBlockAx_pres (scaleOpts : List (String × String)) (x : String)
    (yDots : List String) (dotsOpts : List (String × Style)) (s : Store)
    (p : Axes × Nat) (ax : Axes) (s' : Store)
    (h : infBlockAx scaleOpts x yDots dotsOpts s p = .ok (ax, s')) :
    StorePres s s' := by
  unfold infBlockAx at h
  cases hsc : applyScales p.1 scaleOpts with
  | error e => rw [hsc] at h; simp [Bind.bind, Except.bind] at h
  | ok ax1 =>
    rw [hsc] at h
    simp only [Bind.bind, Except.bind] at h
    cases hl : infLoop x dotsOpts ax1.ylim s (ax1, p.2) yDots with
    | error e => rw [hl] at h; simp at h
    | ok r =>
      rw [hl] at h
      simp only [Except.ok.injEq, Prod.mk.injEq] at h
      rw [← h.2]
      exact infLoop_pres x dotsOpts ax1.ylim yDots s (ax1, p.2) r hl

theorem infAll_pres (scaleOpts : List (String × String)) (x : String)
    (yDots : List String) (dotsOpts : List (String × Style)) :
    ∀ (ps : List (Axes × Nat)) (s : Store) axes2 s2,
      infAll scaleOpts x yDots dotsOpts s ps = .ok (axes2, s2) → StorePres s s2 := by
  intro ps
  induction ps with
  | nil => intro s axes2 s2 h; cases h; exact StorePres.refl s
  | cons p ps ih =>
    intro s axes2 s2 h
    unfold infAll at h
    cases hb : infBlockAx scaleOpts x yDots dotsOpts s p with
    | error e => rw [hb] at h; simp [Bind.bind, Except.bind] at h
    | ok r =>
      obtain ⟨ax, s'⟩ := r
      rw [hb] at h
      simp only [Bind.bind, Except.bind] at h
      cases hr : infAll scaleOpts x yDots dotsOpts s' ps with
      | error e => rw [hr] at h; simp at h
      | ok r2 =>
        obtain ⟨axesR, sR⟩ := r2
        rw [hr] at h
        simp only [Except.ok.injEq, Prod.mk.injEq] at h
        rw [← h.2]
        exact (infBlockAx_pres _ _ _ _ _ _ _ _ hb).trans (ih _ _ _ hr)

/-! ## Stage lemmas -/

theorem exceptMapM_eq_map {α β : Type} (f : α → Except Err β) (g : α → β) :
    ∀ l : List α, (∀ a ∈ l, f a = .ok (g a)) → exceptMapM f l = .ok (l.map g) := by
  intro l
  induction l with
  | nil => intro _; rfl
  | cons a as ih =>
    intro hall
    unfold exceptMapM
    rw [hall a (by simp), ih (fun b hb => hall b (by simp [hb]))]
    rfl

theorem exceptMapM_length {α β : Type} (f : α → Except Err β) :
    ∀ (l : List α) (r : List β), exceptMapM f l = .ok r → r.length = l.length := by
  intro l
  induction l with
  | nil => intro r h; cases h; rfl
  | cons a as ih =>
    intro r h
    unfold exceptMapM at h
    cases ha : f a with
    | error e => rw [ha] at h; simp [Bind.bind, Except.bind] at h
    | ok b =>
      rw [ha] at h
      simp only [Bind.bind, Except.bind] at h
      cases has : exceptMapM f as with
      | error e => rw [has] at h; simp at h
      | ok bs =>
        rw [has] at h
        cases h
        simp [ih bs has]

theorem exceptMapM_get {α β : Type} (f : α → Except Err β) :
    ∀ (l : List α) (r : List β), exceptMapM f l = .ok r →
      ∀ i (h1 : i < l.length) (h2 : i < r.length),
        f (l.get ⟨i, h1⟩) = .ok (r.get ⟨i, h2⟩) := by
  intro l
  induction l with
  | nil => intro r h i h1; exact absurd h1 (by simp)
  | cons a as ih =>
    intro r h i h1 h2
    unfold exceptMapM at h
    cases ha : f a with
    | error e => rw [ha] at h; simp [Bind.bind, Except.bind] at h
    | ok b =>
      rw [ha] at h
      simp only [Bind.bind, Except.bind] at h
      cases has : exceptMapM f as with
      | error e => rw [has] at h; simp at h
      | ok bs =>
        rw [has] at h
        cases h
        cases i with
        | zero => exact ha
        | succ j => exact ih bs has j (by simpa using h1) (by simpa using h2)

/-- The filtered copy produced for one facet combination. -/
def subFor (data : DataFrame) (keys : List String) (c : List EVal) : DataFrame :=
  { data with rows := data.rows.filter (matchCombo data keys c) }

theorem queryCombo_ok_inv (data : DataFrame) (keys : List String) (c : List EVal)
    (sub : DataFrame) (h : data.queryCombo keys c = .ok sub) :
    sub = subFor data keys c := by
  unfold DataFrame.queryCombo at h
  by_cases hk : keys.all (fun k => (data.colIdx k).isSome) = true
  · rw [if_pos hk] at h; cases h; rfl
  · rw [if_neg hk] at h; cases h

theorem queryCombo_ok (data : DataFrame) (keys : List String) (c : List EVal)
    (hk : keys.all (fun k => (data.colIdx k).isSome) = true) :
    data.queryCombo keys c = .ok (subFor data keys c) := by
  unfold DataFrame.queryCombo
  rw [if_pos hk]
  rfl

theorem pushQueries_spec (data : DataFrame) (keys : List String) :
    ∀ (cs : List (List EVal)) (s : Store) r,
      pushQueries s data keys cs = .ok r →
      r.1 = List.range' s.length cs.length ∧
      ∃ subs : List DataFrame, r.2 = s ++ subs ∧ subs.length = cs.length ∧
        ∀ i (h1 : i < cs.length) (h2 : i < subs.length),
          data.queryCombo keys (cs.get ⟨i, h1⟩) = .ok (subs.get ⟨i, h2⟩) := by
  intro cs
  induction cs with
  | nil =>
    intro s r h
    cases h
    exact ⟨rfl, [], by simp, rfl, fun i h1 => absurd h1 (by simp)⟩
  | cons c cs ih =>
    intro s r h
    unfold pushQueries at h
    cases hq : data.queryCombo keys c with
    | error e => rw [hq] at h; simp [Bind.bind, Except.bind] at h
    | ok sub =>
      rw [hq] at h
      simp only [Bind.bind, Except.bind] at h
      cases hp : pushQueries (s ++ [sub]) data keys cs with
      | error e => rw [hp] at h; simp at h
      | ok r2 =>
        rw [hp] at h
        cases h
        obtain ⟨hids, subs, hst, hlen, hget⟩ := ih (s ++ [sub]) r2 hp
        refine ⟨?_, sub :: subs, ?_, by simp [hlen], ?_⟩
        · simp [hids, List.range'_succ]
        · simp [hst]
        · intro i h1 h2
          cases i with
          | zero => exact hq
          | succ j =>
            exact hget j (by simpa using h1) (by simpa using h2)

theorem drawAll_length (s : Store) (x : String) (yDots yLine : List String)
    (dotsOpts lineOpts : List (String × Style)) :
    ∀ ps axes1, drawAll s x yDots yLine dotsOpts lineOpts ps = .ok axes1 →
      axes1.length = ps.length := by
  intro ps
  induction ps with
  | nil => intro axes1 h; cases h; rfl
  | cons p ps ih =>
    intro axes1 h
    unfold drawAll at h
    cases hd : drawAx s x yDots yLine dotsOpts lineOpts p with
    | error e => rw [hd] at h; simp [Bind.bind, Except.bind] at h
    | ok ax =>
      rw [hd] at h
      simp only [Bind.bind, Except.bind] at h
      cases hr : drawAll s x yDots yLine dotsOpts lineOpts ps with
      | error e => rw [hr] at h; simp at h
      | ok rest => rw [hr] at h; cases h; simp [ih rest hr]

theorem drawAll_get (s : Store) (x : String) (yDots yLine : List String)
    (dotsOpts lineOpts : List (String × Style)) :
    ∀ ps axes1, drawAll s x yDots yLine dotsOpts lineOpts ps = .ok axes1 →
      ∀ i (h1 : i < ps.length) (h2 : i < axes1.length),
        drawAx s x yDots yLine dotsOpts lineOpts (ps.get ⟨i, h1⟩) =
          .ok (axes1.get ⟨i, h2⟩) := by
  intro ps
  induction ps with
  | nil => intro axes1 h i h1; exact absurd h1 (by simp)
  | cons p ps ih =>
    intro axes1 h i h1 h2
    unfold drawAll at h
    cases hd : drawAx s x yDots yLine dotsOpts lineOpts p with
    | error e => rw [hd] at h; simp [Bind.bind, Except.bind] at h
    | ok ax =>
      rw [hd] at h
      simp only [Bind.bind, Except.bind] at h
      cases hr : drawAll s x yDots yLine dotsOpts lineOpts ps with
      | error e => rw [hr] at h; simp at h
      | ok rest =>
        rw [hr] at h
        cases h
        cases i with
        | zero => exact hd
        | succ j => exact ih rest hr j (by simpa using h1) (by simpa using h2)

theorem infAll_spec (scaleOpts : List (String × String)) (x : String)
    (yDots : List String) (dotsOpts : List (String × Style)) :
    ∀ (ps : List (Axes × Nat)) (s : Store) axes2 s2,
      infAll scaleOpts x yDots dotsOpts s ps = .ok (axes2, s2) →
      axes2.length = ps.length ∧
      ∀ i (h1 : i < ps.length) (h2 : i < axes2.length),
        ∃ sIn sOut, StorePres s sIn ∧
          infBlockAx scaleOpts x yDots dotsOpts sIn (ps.get ⟨i, h1⟩) =
            .ok (axes2.get ⟨i, h2⟩, sOut) := by
  intro ps
  induction ps with
  | nil =>
    intro s axes2 s2 h
    cases h
    exact ⟨rfl, fun i h1 => absurd h1 (by simp)⟩
  | cons p ps ih =>
    intro s axes2 s2 h
    unfold infAll at h
    cases hb : infBlockAx scaleOpts x yDots dotsOpts s p with
    | error e => rw [hb] at h; simp [Bind.bind, Except.bind] at h
    | ok r =>
      obtain ⟨ax, sMid⟩ := r
      rw [hb] at h
      simp only [Bind.bind, Except.bind] at h
      cases hr : infAll scaleOpts x yDots dotsOpts sMid ps with
      | error e => rw [hr] at h; simp at h
      | ok r2 =>
        obtain ⟨axesR, sR⟩ := r2
        rw [hr] at h
        cases h
        obtain ⟨hlen, hget⟩ := ih sMid axesR sR hr
        refine ⟨by simp [hlen], ?_⟩
        intro i h1 h2
        cases i with
        | zero => exact ⟨s, sMid, StorePres.refl s, hb⟩
        | succ j =>
          obtain ⟨sIn, sOut, hpres, hblk⟩ :=
            hget j (by simpa using h1) (by simpa using h2)
          exact ⟨sIn, sOut,
            (infBlockAx_pres _ _ _ _ _ _ _ _ hb).trans hpres, hblk⟩

theorem scatterCol_ok_inv (df : DataFrame) (ax : Axes) (x y : String)
    (st : Style) (ax1 : Axes) (h : scatterCol df ax x y st = .ok ax1) :
    ∃ xs ys, df.getColVals x = .ok xs ∧ df.getColVals y = .ok ys ∧
      ax1 = addArtist ax ⟨y, xs.zip ys, false, st⟩ := by
  unfold scatterCol at h
  cases hx : df.getColVals x with
  | error e => rw [hx] at h; simp [Bind.bind, Except.bind] at h
  | ok xs =>
    rw [hx] at h
    simp only [Bind.bind, Except.bind] at h
    cases hy : df.getColVals y with
    | error e => rw [hy] at h; simp at h
    | ok ys =>
      rw [hy] at h
      cases h
      exact ⟨xs, ys, rfl, rfl, rfl⟩

theorem plotCol_ok_inv (df : DataFrame) (ax : Axes) (x y : String)
    (st : Style) (ax1 : Axes) (h : plotCol df ax x y st = .ok ax1) :
    ∃ xs ys, df.getColVals x = .ok xs ∧ df.getColVals y = .ok ys ∧
      ax1 = addArtist ax ⟨y, xs.zip ys, true, st⟩ := by
  unfold plotCol at h
  cases hx : df.getColVals x with
  | error e => rw [hx] at h; simp [Bind.bind, Except.bind] at h
  | ok xs =>
    rw [hx] at h
    simp only [Bind.bind, Except.bind] at h
    cases hy : df.getColVals y with
    | error e => rw [hy] at h; simp at h
    | ok ys =>
      rw [hy] at h
      cases h
      exact ⟨xs, ys, rfl, rfl, rfl⟩

theorem applyScales_ok_inv (opts : List (String × String)) :
    ∀ ax ax1, applyScales ax opts = .ok ax1 →
      ax1.artists = ax.artists ∧ ax1.title = ax.title := by
  induction opts with
  | nil => intro ax ax1 h; cases h; exact ⟨rfl, rfl⟩
  | cons p opts ih =>
    intro ax ax1 h
    unfold applyScales at h
    by_cases hx : p.1 = "x"
    · rw [if_pos hx] at h
      have hh := ih _ _ h
      exact ⟨hh.1, hh.2⟩
    · rw [if_neg hx] at h
      by_cases hy : p.1 = "y"
      · rw [if_pos hy] at h
        have hh := ih _ _ h
        exact ⟨hh.1, hh.2⟩
      · rw [if_neg hy] at h; cases h

theorem infBlockAx_ok_inv (scaleOpts : List (String × String)) (x : String)
    (yDots : List String) (dotsOpts : List (String × Style)) (s : Store)
    (p : Axes × Nat) (ax2 : Axes) (s2 : Store)
    (h : infBlockAx scaleOpts x yDots dotsOpts s p = .ok (ax2, s2)) :
    ∃ ax1 r, applyScales p.1 scaleOpts = .ok ax1 ∧
      infLoop x dotsOpts ax1.ylim s (ax1, p.2) yDots = .ok r ∧
      ax2 = { r.1 with ylim := ax1.ylim } ∧ s2 = r.2.2 := by
  unfold infBlockAx at h
  cases hsc : applyScales p.1 scaleOpts with
  | error e => rw [hsc] at h; simp [Bind.bind, Except.bind] at h
  | ok ax1 =>
    rw [hsc] at h
    simp only [Bind.bind, Except.bind] at h
    cases hl : infLoop x dotsOpts ax1.ylim s (ax1, p.2) yDots with
    | error e => rw [hl] at h; simp at h
    | ok r =>
      rw [hl] at h
      simp only [Except.ok.injEq, Prod.mk.injEq] at h
      exact ⟨ax1, r, rfl, hl, h.1.symm, h.2.symm⟩

theorem infLoop_artists (x : String) (dotsOpts : List (String × Style))
    (ylim : Int × Int) :
    ∀ (ys : List String) (s : Store) (p : Axes × Nat) r,
      infLoop x dotsOpts ylim s p ys = .ok r →
      ∃ extra, r.1.artists = p.1.artists ++ extra := by
  intro ys
  induction ys with
  | nil => intro s p r h; cases h; exact ⟨[], by simp⟩
  | cons y ys ih =>
    intro s p r h
    unfold infLoop at h
    cases hdf : getFrame s p.2 with
    | error e => rw [hdf] at h; simp [Bind.bind, Except.bind] at h
    | ok df =>
      rw [hdf] at h
      simp only [Bind.bind, Except.bind] at h
      cases hq : df.queryInf y with
      | error e => rw [hq] at h; simp at h
      | ok filtered =>
        rw [hq] at h
        simp only [] at h
        by_cases hemp : filtered.resetIndex.rows.isEmpty = true
        · rw [if_pos hemp] at h
          obtain ⟨extra, he⟩ := ih _ _ _ h
          exact ⟨extra, he⟩
        · rw [if_neg hemp] at h
          cases hg1 : getFrame (s ++ [filtered.resetIndex]) s.length with
          | error e => rw [hg1] at h; simp at h
          | ok df1 =>
            rw [hg1] at h
            simp only [] at h
            cases hc : df1.setColClip y ylim.1 ylim.2 with
            | error e => rw [hc] at h; simp at h
            | ok clipped =>
              rw [hc] at h
              simp only [] at h
              cases hg2 : getFrame ((s ++ [filtered.resetIndex]).set s.length clipped)
                  s.length with
              | error e => rw [hg2] at h; simp at h
              | ok df2 =>
                rw [hg2] at h
                simp only [] at h
                cases hsc : scatterCol df2 p.1 x y (optGet dotsOpts y) with
                | error e => rw [hsc] at h; simp at h
                | ok ax1 =>
                  rw [hsc] at h
                  simp only [] at h
                  obtain ⟨extra, hextra⟩ := ih _ _ _ h
                  obtain ⟨xs, ysv, _, _, hax1⟩ := scatterCol_ok_inv _ _ _ _ _ _ hsc
                  refine ⟨⟨y, xs.zip ysv, false, optGet dotsOpts y⟩ :: extra, ?_⟩
                  rw [hextra, hax1]
                  simp [addArtist]

theorem buildSubsets_spec (s : Store) (data : DataFrame) (keys : List String)
    (axes : List Axes) (ids : List Nat) (s1 : Store)
    (h : buildSubsets s data keys axes = .ok (ids, s1)) :
    ∃ dts combos, exceptMapM data.dtypeOf keys = .ok dts ∧
      recoverCombos dts axes = .ok combos ∧
      combos.length = axes.length ∧
      ids = List.range' s.length combos.length ∧
      ∃ subs : List DataFrame, s1 = s ++ subs ∧ subs.length = combos.length ∧
        ∀ i (h1 : i < combos.length) (h2 : i < subs.length),
          data.queryCombo keys (combos.get ⟨i, h1⟩) = .ok (subs.get ⟨i, h2⟩) := by
  unfold buildSubsets at h
  cases hd : exceptMapM data.dtypeOf keys with
  | error e => rw [hd] at h; simp [Bind.bind, Except.bind] at h
  | ok dts =>
    rw [hd] at h
    simp only [Bind.bind, Except.bind] at h
    cases hc : recoverCombos dts axes with
    | error e => rw [hc] at h; simp at h
    | ok combos =>
      rw [hc] at h
      simp only [] at h
      obtain ⟨hids, subs, hst, hlen, hget⟩ := pushQueries_spec data keys combos s _ h
      have hcl : combos.length = axes.length := by
        have hh := exceptMapM_length (fun ax => recoverCombo dts ax.title) axes combos
        exact hh (by simpa [recoverCombos] using hc)
      exact ⟨dts, combos, rfl, hc, hcl, hids, subs, hst, hlen, hget⟩

/-- Total projection of a successful run's figure. -/
def figOf (r : Except Err (Figure × Store)) : Figure :=
  match r with
  | .ok p => p.1
  | .error _ => ⟨[], none, false, [], {}⟩

/-- Total projection of a successful run's final store. -/
def storeOf (r : Except Err (Figure × Store)) : Store :=
  match r with
  | .ok p => p.2
  | .error _ => []

/-- The values of a column, with a junk default for a missing column. -/
def colValsD (df : DataFrame) (c : String) : List EVal :=
  match df.colIdx c with
  | some i => df.rows.map (fun row => row.getD i (.num 0))
  | none => []

theorem getColVals_ok_imp (df : DataFrame) (c : String) (v : List EVal)
    (h : df.getColVals c = .ok v) : v = colValsD df c := by
  unfold DataFrame.getColVals at h
  unfold colValsD
  cases hi : df.colIdx c with
  | none => rw [hi] at h; exact absurd h (by simp)
  | some i =>
    rw [hi] at h
    simp only [Except.ok.injEq] at h
    exact h.symm

theorem drawCols_artists (df : DataFrame) (x : String)
    (opts : List (String × Style)) (line : Bool) :
    ∀ (ys : List String) (ax ax1 : Axes),
      drawCols df x opts line ax ys = .ok ax1 →
      ax1.artists = ax.artists ++ ys.map
        (fun y => ⟨y, (colValsD df x).zip (colValsD df y), line, optGet opts y⟩) ∧
      ax1.title = ax.title := by
  intro ys
  induction ys with
  | nil => intro ax ax1 h; cases h; simp
  | cons y ys ih =>
    intro ax ax1 h
    unfold drawCols at h
    cases line with
    | false =>
      simp only [Bool.false_eq_true, reduceIte] at h
      cases hs : scatterCol df ax x y (optGet opts y) with
      | error e => rw [hs] at h; simp [Bind.bind, Except.bind] at h
      | ok axm =>
        rw [hs] at h
        simp only [Bind.bind, Except.bind] at h
        obtain ⟨harts, htitle⟩ := ih axm ax1 h
        obtain ⟨xs, ysv, hx, hy, haxm⟩ := scatterCol_ok_inv _ _ _ _ _ _ hs
        subst haxm
        rw [getColVals_ok_imp _ _ _ hx, getColVals_ok_imp _ _ _ hy] at harts
        refine ⟨?_, htitle⟩
        rw [harts]
        simp [addArtist]
    | true =>
      simp only [reduceIte] at h
      cases hs : plotCol df ax x y (optGet opts y) with
      | error e => rw [hs] at h; simp [Bind.bind, Except.bind] at h
      | ok axm =>
        rw [hs] at h
        simp only [Bind.bind, Except.bind] at h
        obtain ⟨harts, htitle⟩ := ih axm ax1 h
        obtain ⟨xs, ysv, hx, hy, haxm⟩ := plotCol_ok_inv _ _ _ _ _ _ hs
        subst haxm
        rw [getColVals_ok_imp _ _ _ hx, getColVals_ok_imp _ _ _ hy] at harts
        refine ⟨?_, htitle⟩
        rw [harts]
        simp [addArtist]

theorem drawAx_artists (s : Store) (x : String) (yDots yLine : List String)
    (dotsOpts lineOpts : List (String × Style)) (p : Axes × Nat) (ax1 : Axes)
    (h : drawAx s x yDots yLine dotsOpts lineOpts p = .ok ax1) :
    ∃ df, getFrame s p.2 = .ok df ∧
      ax1.artists = p.1.artists ++
        yDots.map (fun y => ⟨y, (colValsD df x).zip (colValsD df y), false,
          optGet dotsOpts y⟩) ++
        yLine.map (fun y => ⟨y, (colValsD df x).zip (colValsD df y), true,
          optGet lineOpts y⟩) ∧
      ax1.title = p.1.title := by
  unfold drawAx at h
  cases hdf : getFrame s p.2 with
  | error e => rw [hdf] at h; simp [Bind.bind, Except.bind] at h
  | ok df =>
    rw [hdf] at h
    simp only [Bind.bind, Except.bind] at h
    cases hd : drawCols df x dotsOpts false p.1 yDots with
    | error e => rw [hd] at h; simp at h
    | ok axm =>
      rw [hd] at h
      simp only [] at h
      obtain ⟨ha1, ht1⟩ := drawCols_artists df x dotsOpts false yDots p.1 axm hd
      obtain ⟨ha2, ht2⟩ := drawCols_artists df x lineOpts true yLine axm ax1 h
      exact ⟨df, rfl, by rw [ha2, ha1, List.append_assoc], by rw [ht2, ht1]⟩

theorem facetBy_empty_iff (fo : FacetOptions) :
    (facetBy fo).isEmpty = true ↔ fo.col = none ∧ fo.row = none := by
  unfold facetBy
  cases fo.col <;> cases fo.row <;> simp

theorem soPlotFacet_no_facets (data : DataFrame) (x : String) (fo : FacetOptions)
    (axes : List Axes) (hc : fo.col = none) (hr : fo.row = none)
    (h : soPlotFacet data x fo = .ok axes) : axes = [mkAxes ""] := by
  unfold soPlotFacet at h
  cases hx : data.getColVals x with
  | error e => rw [hx] at h; simp [Bind.bind, Except.bind] at h
  | ok xs =>
    rw [hx] at h
    simp only [Bind.bind, Except.bind] at h
    rw [hc, hr] at h
    cases h
    rfl

/-- In every successful run the subset-handle list is exactly as long as the
axes list. -/
theorem ids_length_eq (data : DataFrame) (fo : FacetOptions) (axes : List Axes)
    (ids : List Nat) (s1 : Store)
    (hax : fo.col = none ∧ fo.row = none → axes = [mkAxes ""])
    (hsub : ((facetBy fo).isEmpty = true ∧ ids = [0] ∧ s1 = [data]) ∨
      ((facetBy fo).isEmpty = false ∧
        buildSubsets [data] data (facetBy fo) axes = .ok (ids, s1))) :
    ids.length = axes.length := by
  rcases hsub with ⟨hemp, hids, _⟩ | ⟨_, hbs⟩
  · rw [hids, hax ((facetBy_empty_iff fo).mp hemp)]
    rfl
  · obtain ⟨_, _, _, _, hcl, hids, _⟩ := buildSubsets_spec _ _ _ _ _ _ hbs
    rw [hids]
    simp [hcl]

/-! ## Concrete datasets used by witnesses and counterexamples -/

/-- Two `y_dots` columns; the row with infinite `b` has finite `a`. -/
def d1 : DataFrame :=
  ⟨["x", "a", "b"], [.numT, .numT, .numT],
    [[.num 1, .posInf, .num 0], [.num 2, .num 0, .posInf]]⟩

/-- One `y_dots` column with one infinite row. -/
def d2c : DataFrame :=
  ⟨["x", "a"], [.numT, .numT], [[.num 1, .posInf], [.num 2, .num 5]]⟩

/-- Like `d2c`, separate dataset for the C10 witness. -/
def d10 : DataFrame :=
  ⟨["t", "v"], [.numT, .numT], [[.num 1, .negInf], [.num 2, .num 3]]⟩

/-- Like `d2c`, separate dataset for the C3 witness. -/
def d3 : DataFrame :=
  ⟨["t", "v"], [.numT, .numT], [[.num 1, .posInf], [.num 2, .num 7], [.num 3, .num 4]]⟩

/-- Dataset for the C6 witness. -/
def d6 : DataFrame :=
  ⟨["x", "a"], [.numT, .numT], [[.num 1, .posInf], [.num 2, .num 5]]⟩

/-! ## Claims -/

/-- C1 (code bug in the source): the spec says every row of a region's subset
whose value in any `y_dots` column is infinite is re-rendered as a clipped
marker.  The code reassigns the loop's subset variable `df` inside
`for y in y_dots`, so detection for a later column runs on rows already
filtered to earlier columns' infinities.  On `d1` (row 1 has `a = inf`,
row 2 has `b = inf`) the run yields exactly three artists — the two main
scatters plus one boundary marker for `a` — and no clipped marker for `b`,
although `d1` has exactly one row with infinite `b`. -/
theorem C1_inf_rows_dropped_for_later_columns :
    (plot_result d1 "x" ["a", "b"] [] [] [] {} [] [] {}).map
      (fun p => p.1.axes.map (fun ax => ax.artists.map (fun a => (a.label, a.pts)))) =
      .ok [[("a", [(EVal.num 1, EVal.posInf), (EVal.num 2, EVal.num 0)]),
            ("b", [(EVal.num 1, EVal.num 0), (EVal.num 2, EVal.posInf)]),
            ("a", [(EVal.num 1, EVal.num 0)])]] ∧
    (figOf (plot_result d1 "x" ["a", "b"] [] [] [] {} [] [] {})).axes.map
      (fun ax => ax.artists.countP (fun a => a.label == "b")) = [1] ∧
    d1.rows.filter (fun row => (d1.rowValD "b" row).isInf) =
      [[EVal.num 2, EVal.num 0, EVal.posInf]] :=
  ⟨rfl, rfl, rfl⟩

/-- C2 counterexample: on `d2c` with `y_dots = ["a"]` the single distinct
series label is `"a"`, so the claim demands exactly one legend entry and
`ncol = 1`; the code produces two entries labelled `"a"` (main scatter plus
the boundary marker re-render) and `ncol = 2`. -/
theorem C2_counterexample :
    (plot_result d2c "x" ["a"] [] [] [] {} [] [] {}).map
      (fun p => p.1.legend.map (fun lg => (lg.labels, lg.ncol))) =
      .ok (some (["a", "a"], 2)) ∧
    ((["a"] ++ ([] : List String)).dedup.length = 1) ∧
    ¬ ((["a", "a"] : List String).length = 1 ∧ (2 : Nat) = 1) :=
  ⟨rfl, by decide, by decide⟩

/-- C6: `plot_result` never mutates the caller's dataframe: in the final
frame store the caller's frame (handle `0`) still holds the input dataset.
All filtering (`query`, `reset_index`) pushes fresh frames, and the in-place
clip assignment only ever targets a fresh frame. -/
theorem C6_no_mutation (data : DataFrame) (x : String) (yDots yLine : List String)
    (dotsOpts lineOpts : List (String × Style)) (fo : FacetOptions)
    (shareOpts : List (String × Bool)) (scaleOpts : List (String × String))
    (figOpts : FigOptions) (fig : Figure) (st : Store)
    (h : plot_result data x yDots yLine dotsOpts lineOpts fo shareOpts
      scaleOpts figOpts = .ok (fig, st)) :
    st.get? 0 = some data := by
  obtain ⟨axes, ids, s1, axes1, axes2, s2, lastAx, hax, hsub, hdr, hinf, hlast, hfig, hst⟩ :=
    plot_result_anatomy data x yDots yLine dotsOpts lineOpts fo shareOpts
      scaleOpts figOpts fig st h
  rw [hst]
  have hpres : StorePres s1 s2 :=
    infAll_pres scaleOpts x yDots dotsOpts (axes1.zip ids) s1 axes2 s2 hinf
  have h0 : s1.get? 0 = some data := by
    rcases hsub with ⟨_, _, hs1⟩ | ⟨_, hbs⟩
    · subst hs1; rfl
    · obtain ⟨_, _, _, _, _, _, subs, hs1, _, _⟩ := buildSubsets_spec _ _ _ _ _ _ hbs
      subst hs1
      rw [List.get?_append (by simp)]
      rfl
  have hlen : 0 < s1.length := by
    rcases hsub with ⟨_, _, hs1⟩ | ⟨_, hbs⟩
    · subst hs1; simp
    · obtain ⟨_, _, _, _, _, _, subs, hs1, _, _⟩ := buildSubsets_spec _ _ _ _ _ _ hbs
      subst hs1
      simp
  rw [hpres.2 0 hlen, h0]

/-- C6 witness: a concrete successful run leaves the caller's frame intact. -/
theorem C6_no_mutation_witness :
    (storeOf (plot_result d6 "x" ["a"] [] [] [] {} [] [] {})).get? 0 = some d6 := by
  obtain ⟨⟨fig, st⟩, hp⟩ :
      ∃ p, plot_result d6 "x" ["a"] [] [] [] {} [] [] {} = .ok p := ⟨_, rfl⟩
  rw [hp]
  exact C6_no_mutation d6 "x" ["a"] [] [] [] {} [] [] {} fig st hp

/-- C10: the figure-level legend is assembled solely from the handles and
labels of the last rendered region, and its column count equals the number
of handles on that axis (not the number of distinct labels). -/
theorem C10_legend_last_axis (data : DataFrame) (x : String)
    (yDots yLine : List String) (dotsOpts lineOpts : List (String × Style))
    (fo : FacetOptions) (shareOpts : List (String × Bool))
    (scaleOpts : List (String × String)) (figOpts : FigOptions)
    (fig : Figure) (st : Store)
    (h : plot_result data x yDots yLine dotsOpts lineOpts fo shareOpts
      scaleOpts figOpts = .ok (fig, st)) :
    ∃ lastAx, fig.axes.getLast? = some lastAx ∧
      fig.legend = some ⟨(getHandlesLabels lastAx).1, (getHandlesLabels lastAx).2,
        (getHandlesLabels lastAx).1.length, "lower center"⟩ := by
  obtain ⟨axes, ids, s1, axes1, axes2, s2, lastAx, hax, hsub, hdr, hinf, hlast, hfig, hst⟩ :=
    plot_result_anatomy data x yDots yLine dotsOpts lineOpts fo shareOpts
      scaleOpts figOpts fig st h
  subst hfig
  exact ⟨lastAx, hlast, rfl⟩

/-- C10 witness: on `d10` the legend repeats the label `"v"` (main scatter
plus boundary marker of the last and only axis) with `ncol = 2`, while the
number of distinct labels is `1`. -/
theorem C10_legend_last_axis_witness :
    (∃ lastAx, (figOf (plot_result d10 "t" ["v"] [] [] [] {} [] [] {})).axes.getLast? =
        some lastAx ∧
      (figOf (plot_result d10 "t" ["v"] [] [] [] {} [] [] {})).legend =
        some ⟨(getHandlesLabels lastAx).1, (getHandlesLabels lastAx).2,
          (getHandlesLabels lastAx).1.length, "lower center"⟩) ∧
    (figOf (plot_result d10 "t" ["v"] [] [] [] {} [] [] {})).legend.map
      (fun lg => (lg.labels, lg.ncol)) = some (["v", "v"], 2) ∧
    (["v", "v"] : List String).dedup.length = 1 := by
  obtain ⟨⟨fig, st⟩, hp⟩ :
      ∃ p, plot_result d10 "t" ["v"] [] [] [] {} [] [] {} = .ok p := ⟨_, rfl⟩
  refine ⟨?_, by rfl, by decide⟩
  rw [hp]
  exact C10_legend_last_axis d10 "t" ["v"] [] [] [] {} [] [] {} fig st hp

/-- C3: in every successful run, for every region, the axis-scale overrides
are applied to the post-draw axes first, the y-range is captured from that
scaled axes, and the region's final y-range equals that captured range —
adding the boundary markers leaves the y-range unchanged. -/
theorem C3_ylim_restored (data : DataFrame) (x : String)
    (yDots yLine : List String) (dotsOpts lineOpts : List (String × Style))
    (fo : FacetOptions) (shareOpts : List (String × Bool))
    (scaleOpts : List (String × String)) (figOpts : FigOptions)
    (fig : Figure) (st : Store)
    (h : plot_result data x yDots yLine dotsOpts lineOpts fo shareOpts
      scaleOpts figOpts = .ok (fig, st)) :
    ∃ axes ids s1 axes1,
      soPlotFacet data x fo = .ok axes ∧
      drawAll s1 x yDots yLine dotsOpts lineOpts (axes.zip ids) = .ok axes1 ∧
      fig.axes.length = axes1.length ∧
      ∀ i (h1 : i < axes1.length) (h2 : i < fig.axes.length),
        ∃ axSc, applyScales (axes1.get ⟨i, h1⟩) scaleOpts = .ok axSc ∧
          (fig.axes.get ⟨i, h2⟩).ylim = axSc.ylim := by
  obtain ⟨axes, ids, s1, axes1, axes2, s2, lastAx, hax, hsub, hdr, hinf, hlast, hfig, hst⟩ :=
    plot_result_anatomy data x yDots yLine dotsOpts lineOpts fo shareOpts
      scaleOpts figOpts fig st h
  subst hfig
  obtain ⟨hlen2, hget2⟩ :=
    infAll_spec scaleOpts x yDots dotsOpts (axes1.zip ids) s1 axes2 s2 hinf
  have hlz : axes2.length = axes1.length ⊓ ids.length := by
    rw [hlen2, List.length_zip]
  have hida : ids.length = axes.length :=
    ids_length_eq data fo axes ids s1
      (fun hcr => soPlotFacet_no_facets data x fo axes hcr.1 hcr.2 hax) hsub
  have h1a : axes1.length = axes.length := by
    rw [drawAll_length s1 x yDots yLine dotsOpts lineOpts _ _ hdr,
      List.length_zip, hida, min_self]
  refine ⟨axes, ids, s1, axes1, hax, hdr, ?_, ?_⟩
  · show axes2.length = axes1.length
    rw [hlz, h1a, hida]
    exact min_self _
  · intro i h1 h2
    have h2x : i < axes2.length := by
      rw [hlz]
      simp only [lt_min_iff]
      omega
    have hzi : i < (axes1.zip ids).length := by
      rw [List.length_zip]
      simp only [lt_min_iff]
      omega
    obtain ⟨sIn, sOut, hpres, hblk⟩ := hget2 i hzi h2x
    obtain ⟨axSc, r, hsc, hl, hax2, hsout⟩ :=
      infBlockAx_ok_inv scaleOpts x yDots dotsOpts sIn _ _ _ hblk
    have hfst : ((axes1.zip ids).get ⟨i, hzi⟩).1 = axes1.get ⟨i, h1⟩ := by
      simp [List.getElem_zip]
    rw [hfst] at hsc
    refine ⟨axSc, hsc, ?_⟩
    show (axes2.get ⟨i, h2x⟩).ylim = axSc.ylim
    rw [hax2]

/-- C3 witness: concrete run with a y-scale override and an infinite value;
the final y-range of the single region equals the captured scaled range. -/
theorem C3_ylim_restored_witness :
    ∃ axes ids s1 axes1,
      soPlotFacet d3 "t" {} = .ok axes ∧
      drawAll s1 "t" ["v"] [] [] [] (axes.zip ids) = .ok axes1 ∧
      (figOf (plot_result d3 "t" ["v"] [] [] [] {} [] [("y", "log")] {})).axes.length =
        axes1.length ∧
      ∀ i (h1 : i < axes1.length)
        (h2 : i < (figOf (plot_result d3 "t" ["v"] [] [] [] {} [] [("y", "log")] {})).axes.length),
        ∃ axSc, applyScales (axes1.get ⟨i, h1⟩) [("y", "log")] = .ok axSc ∧
          ((figOf (plot_result d3 "t" ["v"] [] [] [] {} [] [("y", "log")] {})).axes.get
            ⟨i, h2⟩).ylim = axSc.ylim := by
  obtain ⟨⟨fig, st⟩, hp⟩ :
      ∃ p, plot_result d3 "t" ["v"] [] [] [] {} [] [("y", "log")] {} = .ok p := ⟨_, rfl⟩
  rw [hp]
  exact C3_ylim_restored d3 "t" ["v"] [] [] [] {} [] [("y", "log")] {} fig st hp

/-! ## Column-presence lemmas -/

theorem getColVals_ok_colIdx (df : DataFrame) (c : String) (v : List EVal)
    (h : df.getColVals c = .ok v) : (df.colIdx c).isSome = true := by
  unfold DataFrame.getColVals at h
  cases hi : df.colIdx c with
  | none => rw [hi] at h; exact absurd h (by simp)
  | some i => rfl

theorem colValsD_length (df : DataFrame) (c : String)
    (h : (df.colIdx c).isSome = true) :
    (colValsD df c).length = df.rows.length := by
  unfold colValsD
  cases hi : df.colIdx c with
  | none => rw [hi] at h; simp at h
  | some i => simp

theorem soPlotFacet_ok_x (data : DataFrame) (x : String) (fo : FacetOptions)
    (axes : List Axes) (h : soPlotFacet data x fo = .ok axes) :
    (data.colIdx x).isSome = true := by
  unfold soPlotFacet at h
  cases hx : data.getColVals x with
  | error e => rw [hx] at h; simp [Bind.bind, Except.bind] at h
  | ok v => exact getColVals_ok_colIdx data x v hx

theorem drawCols_ok_cols (df : DataFrame) (x : String)
    (opts : List (String × Style)) (line : Bool) :
    ∀ (ys : List String) (ax ax1 : Axes),
      drawCols df x opts line ax ys = .ok ax1 →
      ∀ y ∈ ys, (df.colIdx y).isSome = true := by
  intro ys
  induction ys with
  | nil => intro ax ax1 h y hy; simp at hy
  | cons y0 ys ih =>
    intro ax ax1 h y hy
    unfold drawCols at h
    cases line with
    | false =>
      simp only [Bool.false_eq_true, reduceIte] at h
      cases hs : scatterCol df ax x y0 (optGet opts y0) with
      | error e => rw [hs] at h; simp [Bind.bind, Except.bind] at h
      | ok axm =>
        rw [hs] at h
        simp only [Bind.bind, Except.bind] at h
        rcases List.mem_cons.mp hy with he | ht
        · subst he
          obtain ⟨xs, ysv, _, hyv, _⟩ := scatterCol_ok_inv _ _ _ _ _ _ hs
          exact getColVals_ok_colIdx df y ysv hyv
        · exact ih axm ax1 h y ht
    | true =>
      simp only [reduceIte] at h
      cases hs : plotCol df ax x y0 (optGet opts y0) with
      | error e => rw [hs] at h; simp [Bind.bind, Except.bind] at h
      | ok axm =>
        rw [hs] at h
        simp only [Bind.bind, Except.bind] at h
        rcases List.mem_cons.mp hy with he | ht
        · subst he
          obtain ⟨xs, ysv, _, hyv, _⟩ := plotCol_ok_inv _ _ _ _ _ _ hs
          exact getColVals_ok_colIdx df y ysv hyv
        · exact ih axm ax1 h y ht

/-- Every subset handle produced for the regions dereferences to a frame
with the input's columns and dtypes whose rows all come from the input. -/
theorem subset_frame_at (data : DataFrame) (fo : FacetOptions)
    (axes : List Axes) (ids : List Nat) (s1 : Store)
    (hsub : ((facetBy fo).isEmpty = true ∧ ids = [0] ∧ s1 = [data]) ∨
      ((facetBy fo).isEmpty = false ∧
        buildSubsets [data] data (facetBy fo) axes = .ok (ids, s1)))
    (i : Nat) (h1 : i < ids.length) :
    ∃ df, getFrame s1 (ids.get ⟨i, h1⟩) = .ok df ∧ df.cols = data.cols ∧
      df.dtypes = data.dtypes ∧ ∀ r ∈ df.rows, r ∈ data.rows := by
  rcases hsub with ⟨_, hids, hs1⟩ | ⟨_, hbs⟩
  · subst hids; subst hs1
    have hi0 : i = 0 := by simp at h1; omega
    subst hi0
    exact ⟨data, rfl, rfl, rfl, fun r hr => hr⟩
  · obtain ⟨dts, combos, hd1, hd2, hcl, hids, subs, hs1, hslen, hget⟩ :=
      buildSubsets_spec _ _ _ _ _ _ hbs
    subst hs1
    subst hids
    have hi : i < combos.length := by simpa using h1
    have hi2 : i < subs.length := by omega
    have hic : (List.range' ([data] : Store).length combos.length).get ⟨i, h1⟩ =
        1 + i := by
      simp [List.getElem_range']
    have hq := hget i hi hi2
    have heq := queryCombo_ok_inv _ _ _ _ hq
    refine ⟨subs.get ⟨i, hi2⟩, ?_, ?_, ?_, ?_⟩
    · unfold getFrame
      rw [hic, List.get?_append_right (by simp)]
      have h1i : 1 + i - ([data] : Store).length = i := by simp
      rw [h1i, List.get?_eq_getElem?, List.getElem?_eq_getElem hi2]
      simp
    · rw [heq]; rfl
    · rw [heq]; rfl
    · rw [heq]
      intro r hr
      exact (List.mem_filter.mp hr).1

theorem drawAx_ok_inv (s : Store) (x : String) (yDots yLine : List String)
    (dotsOpts lineOpts : List (String × Style)) (p : Axes × Nat) (ax1 : Axes)
    (h : drawAx s x yDots yLine dotsOpts lineOpts p = .ok ax1) :
    ∃ df axm, getFrame s p.2 = .ok df ∧
      drawCols df x dotsOpts false p.1 yDots = .ok axm ∧
      drawCols df x lineOpts true axm yLine = .ok ax1 := by
  unfold drawAx at h
  cases hdf : getFrame s p.2 with
  | error e => rw [hdf] at h; simp [Bind.bind, Except.bind] at h
  | ok df =>
    rw [hdf] at h
    simp only [Bind.bind, Except.bind] at h
    cases hd : drawCols df x dotsOpts false p.1 yDots with
    | error e => rw [hd] at h; simp at h
    | ok axm =>
      rw [hd] at h
      exact ⟨df, axm, rfl, hd, h⟩

/-- In a successful run `x` and every `y_dots`/`y_line` entry is a column. -/
theorem plot_result_ok_columns (data : DataFrame) (x : String)
    (yDots yLine : List String) (dotsOpts lineOpts : List (String × Style))
    (fo : FacetOptions) (shareOpts : List (String × Bool))
    (scaleOpts : List (String × String)) (figOpts : FigOptions)
    (fig : Figure) (st : Store)
    (h : plot_result data x yDots yLine dotsOpts lineOpts fo shareOpts
      scaleOpts figOpts = .ok (fig, st)) :
    x ∈ data.cols ∧ ∀ y ∈ yDots ++ yLine, y ∈ data.cols := by
  obtain ⟨axes, ids, s1, axes1, axes2, s2, lastAx, hax, hsub, hdr, hinf, hlast, hfig, hst⟩ :=
    plot_result_anatomy data x yDots yLine dotsOpts lineOpts fo shareOpts
      scaleOpts figOpts fig st h
  have hx : x ∈ data.cols :=
    (colIdx_isSome_iff data x).mp (soPlotFacet_ok_x data x fo axes hax)
  refine ⟨hx, ?_⟩
  have hne2 : axes2 ≠ [] := by
    intro he; subst he; simp at hlast
  have hlen2 := (infAll_spec scaleOpts x yDots dotsOpts (axes1.zip ids) s1 axes2 s2 hinf).1
  have hlen1 := drawAll_length s1 x yDots yLine dotsOpts lineOpts _ _ hdr
  have hpos : 0 < (axes.zip ids).length := by
    have h2 : 0 < axes2.length := List.length_pos.mpr hne2
    rw [hlen2, List.length_zip, hlen1, List.length_zip] at h2
    rw [List.length_zip]
    omega
  have hidpos : 0 < ids.length := by
    rw [List.length_zip] at hpos
    omega
  have hdx := drawAll_get s1 x yDots yLine dotsOpts lineOpts _ _ hdr 0 hpos
    (by rw [hlen1]; exact hpos)
  obtain ⟨df, axm, hdf, hdc1, hdc2⟩ := drawAx_ok_inv _ _ _ _ _ _ _ _ hdx
  obtain ⟨df2, hdf2, hcols, _, _⟩ := subset_frame_at data fo axes ids s1 hsub 0 hidpos
  have hsnd : ((axes.zip ids).get ⟨0, hpos⟩).2 = ids.get ⟨0, hidpos⟩ := by
    simp [List.getElem_zip]
  rw [hsnd, hdf2] at hdf
  have hdfeq : df2 = df := by simpa using hdf
  subst hdfeq
  intro y hy
  rw [← hcols]
  rcases List.mem_append.mp hy with hyd | hyl
  · exact (colIdx_isSome_iff df2 y).mp
      (drawCols_ok_cols df2 x dotsOpts false yDots _ _ hdc1 y hyd)
  · exact (colIdx_isSome_iff df2 y).mp
      (drawCols_ok_cols df2 x lineOpts true yLine _ _ hdc2 y hyl)

/-- Dataset for the C5 witness. -/
def d5 : DataFrame :=
  ⟨["x", "u", "w"], [.numT, .numT, .numT],
    [[.num 1, .num 10, .num 20], [.num 2, .num 11, .num 21]]⟩

/-- Dataset for the C7 witness. -/
def d7 : DataFrame := ⟨["x", "a"], [.numT, .numT], [[.num 1, .num 2]]⟩

/-- Dataset for the C9 witness: a string facet value containing the title
separator, which breaks the label-to-value recovery. -/
def d9 : DataFrame := ⟨["c", "x"], [.strT, .numT], [[.str "a | b", .num 1]]⟩

/-- C5: with no facet keys configured, every successful run produces exactly
one region whose subset is the entire input dataset: each `y_dots`/`y_line`
column is drawn as one artist whose points pair the full `x` column with the
full `y` column (one point per input row). -/
theorem C5_no_facets_single_region (data : DataFrame) (x : String)
    (yDots yLine : List String) (dotsOpts lineOpts : List (String × Style))
    (fo : FacetOptions) (shareOpts : List (String × Bool))
    (scaleOpts : List (String × String)) (figOpts : FigOptions)
    (fig : Figure) (st : Store)
    (hc : fo.col = none) (hr : fo.row = none)
    (h : plot_result data x yDots yLine dotsOpts lineOpts fo shareOpts
      scaleOpts figOpts = .ok (fig, st)) :
    fig.axes.length = 1 ∧
    (colValsD data x).length = data.rows.length ∧
    ∀ ax ∈ fig.axes,
      (∀ y ∈ yDots, (⟨y, (colValsD data x).zip (colValsD data y), false,
        optGet dotsOpts y⟩ : Artist) ∈ ax.artists) ∧
      (∀ y ∈ yLine, (⟨y, (colValsD data x).zip (colValsD data y), true,
        optGet lineOpts y⟩ : Artist) ∈ ax.artists) := by
  obtain ⟨axes, ids, s1, axes1, axes2, s2, lastAx, hax, hsub, hdr, hinf, hlast, hfig, hst⟩ :=
    plot_result_anatomy data x yDots yLine dotsOpts lineOpts fo shareOpts
      scaleOpts figOpts fig st h
  have hemp : (facetBy fo).isEmpty = true := (facetBy_empty_iff fo).mpr ⟨hc, hr⟩
  rcases hsub with ⟨_, hids, hs1⟩ | ⟨hne, _⟩
  swap
  · rw [hemp] at hne; simp at hne
  subst hids
  subst hs1
  have haxes := soPlotFacet_no_facets data x fo axes hc hr hax
  subst haxes
  have hxs : (data.colIdx x).isSome = true := soPlotFacet_ok_x data x fo _ hax
  have h1len : axes1.length = 1 := by
    simpa using drawAll_length _ _ _ _ _ _ _ _ hdr
  obtain ⟨ax1, hax1⟩ := List.length_eq_one.mp h1len
  subst hax1
  have hdx := drawAll_get _ _ _ _ _ _ _ _ hdr 0 (by simp) (by simp)
  obtain ⟨df, hdf, harts, htitle⟩ := drawAx_artists _ _ _ _ _ _ _ _ hdx
  have hdfd : data = df := by simpa [getFrame] using hdf
  subst hdfd
  obtain ⟨h2len0, hget2⟩ :=
    infAll_spec scaleOpts x yDots dotsOpts (([ax1] : List Axes).zip [0]) [data]
      axes2 s2 hinf
  have h2len : axes2.length = 1 := by simpa using h2len0
  obtain ⟨ax2, hax2e⟩ := List.length_eq_one.mp h2len
  subst hax2e
  obtain ⟨sIn, sOut, hpres, hblk⟩ := hget2 0 (by simp) (by simp)
  obtain ⟨axSc, r, hsc, hloop, hax2eq, _⟩ := infBlockAx_ok_inv _ _ _ _ _ _ _ _ hblk
  have hscarts : axSc.artists = ax1.artists := (applyScales_ok_inv _ _ _ hsc).1
  obtain ⟨extra, hextra⟩ := infLoop_artists _ _ _ _ _ _ _ hloop
  have hax2b : ax2 = { r.1 with ylim := axSc.ylim } := hax2eq
  have harts2 : ax1.artists =
      ([] : List Artist) ++
        yDots.map (fun y => (⟨y, (colValsD data x).zip (colValsD data y), false,
          optGet dotsOpts y⟩ : Artist)) ++
        yLine.map (fun y => (⟨y, (colValsD data x).zip (colValsD data y), true,
          optGet lineOpts y⟩ : Artist)) := harts
  have hax2a : ax2.artists = ax1.artists ++ extra := by
    rw [hax2b]
    show r.1.artists = ax1.artists ++ extra
    rw [hextra]
    show axSc.artists ++ extra = ax1.artists ++ extra
    rw [hscarts]
  subst hfig
  refine ⟨rfl, colValsD_length data x hxs, ?_⟩
  intro ax hmem
  have haxeq : ax = ax2 := by simpa using hmem
  subst haxeq
  constructor
  · intro y hy
    rw [hax2a, harts2]
    simp only [List.nil_append]
    refine List.mem_append_left _ ?_
    refine List.mem_append_left _ ?_
    exact List.mem_map_of_mem _ hy
  · intro y hy
    rw [hax2a, harts2]
    simp only [List.nil_append]
    refine List.mem_append_left _ ?_
    refine List.mem_append_right _ ?_
    exact List.mem_map_of_mem _ hy

/-- C5 witness: a concrete facet-free run has one region containing the full
two-row dataset as points of each series artist. -/
theorem C5_no_facets_single_region_witness :
    (figOf (plot_result d5 "x" ["u"] ["w"] [] [] {} [] [] {})).axes.length = 1 ∧
    (colValsD d5 "x").length = d5.rows.length ∧
    ∀ ax ∈ (figOf (plot_result d5 "x" ["u"] ["w"] [] [] {} [] [] {})).axes,
      (∀ y ∈ ["u"], (⟨y, (colValsD d5 "x").zip (colValsD d5 y), false,
        optGet [] y⟩ : Artist) ∈ ax.artists) ∧
      (∀ y ∈ ["w"], (⟨y, (colValsD d5 "x").zip (colValsD d5 y), true,
        optGet [] y⟩ : Artist) ∈ ax.artists) := by
  obtain ⟨⟨fig, st⟩, hp⟩ :
      ∃ p, plot_result d5 "x" ["u"] ["w"] [] [] {} [] [] {} = .ok p := ⟨_, rfl⟩
  rw [hp]
  exact C5_no_facets_single_region d5 "x" ["u"] ["w"] [] [] {} [] [] {} fig st
    rfl rfl hp

/-- C7: when `x` or an entry of `y_dots`/`y_line` does not name a column of
the dataset, `plot_result` raises (the lookup failure propagates) and no
figure is returned. -/
theorem C7_missing_column_errors (data : DataFrame) (x : String)
    (yDots yLine : List String) (dotsOpts lineOpts : List (String × Style))
    (fo : FacetOptions) (shareOpts : List (String × Bool))
    (scaleOpts : List (String × String)) (figOpts : FigOptions)
    (hmiss : x ∉ data.cols ∨ ∃ y, y ∈ yDots ++ yLine ∧ y ∉ data.cols) :
    ∃ e, plot_result data x yDots yLine dotsOpts lineOpts fo shareOpts
      scaleOpts figOpts = .error e := by
  cases hrun : plot_result data x yDots yLine dotsOpts lineOpts fo shareOpts
      scaleOpts figOpts with
  | error e => exact ⟨e, rfl⟩
  | ok p =>
    obtain ⟨fig, st⟩ := p
    obtain ⟨hx, hys⟩ := plot_result_ok_columns data x yDots yLine dotsOpts
      lineOpts fo shareOpts scaleOpts figOpts fig st hrun
    rcases hmiss with hm | ⟨y, hy, hm⟩
    · exact absurd hx hm
    · exact absurd (hys y hy) hm

/-- C7 witness: a `y_dots` entry naming a missing column makes the run fail. -/
theorem C7_missing_column_errors_witness :
    ∃ e, plot_result d7 "x" ["zz"] [] [] [] {} [] [] {} = .error e :=
  C7_missing_column_errors d7 "x" ["zz"] [] [] [] {} [] [] {}
    (Or.inr ⟨"zz", by decide, by decide⟩)

/-- C9: when recovering a facet-key value from a region's label fails — the
split parts cannot be reassembled into the key columns or a part cannot be
cast back to the column's dtype — `plot_result` fails with that conversion
error surfaced to the caller. -/
theorem C9_cast_error_propagates (data : DataFrame) (x : String)
    (yDots yLine : List String) (dotsOpts lineOpts : List (String × Style))
    (fo : FacetOptions) (shareOpts : List (String × Bool))
    (scaleOpts : List (String × String)) (figOpts : FigOptions)
    (axes : List Axes) (dts : List Dtype) (e : Err)
    (hax : soPlotFacet data x fo = .ok axes)
    (hkeys : (facetBy fo).isEmpty = false)
    (hdts : exceptMapM data.dtypeOf (facetBy fo) = .ok dts)
    (hrec : recoverCombos dts axes = .error e) :
    plot_result data x yDots yLine dotsOpts lineOpts fo shareOpts
      scaleOpts figOpts = .error e := by
  unfold plot_result
  rw [hax]
  simp only [Bind.bind, Except.bind]
  rw [hkeys]
  simp only [Bool.false_eq_true, if_false]
  unfold buildSubsets
  rw [hdts]
  simp only [Bind.bind, Except.bind]
  rw [hrec]

theorem queryInf_ok_inv (df : DataFrame) (y : String) (f : DataFrame)
    (h : df.queryInf y = .ok f) :
    ∃ i, df.colIdx y = some i ∧ f.cols = df.cols ∧ f.dtypes = df.dtypes ∧
      f.rows = df.rows.filter (fun row => (row.getD i (.num 0)).isInf) := by
  unfold DataFrame.queryInf at h
  cases hi : df.colIdx y with
  | none => rw [hi] at h; exact absurd h (by simp)
  | some i =>
    rw [hi] at h
    cases h
    exact ⟨i, rfl, rfl, rfl, rfl⟩

theorem getFrame_pres (s s' : Store) (i : Nat) (df : DataFrame)
    (hp : StorePres s s') (h : getFrame s i = .ok df) : getFrame s' i = .ok df := by
  unfold getFrame at h ⊢
  cases hg : s.get? i with
  | none => rw [hg] at h; exact absurd h (by simp)
  | some d =>
    rw [hg] at h
    have hlt : i < s.length := by
      by_contra hge
      rw [List.get?_eq_getElem?, List.getElem?_eq_none (by omega)] at hg
      cases hg
    rw [hp.2 i hlt, hg]
    exact h

/-- When no row of the dataset has an infinite value in any of the listed
columns, the boundary-marker loop adds no artist: the axes comes out as it
went in. -/
theorem infLoop_no_additions (data : DataFrame) (x : String)
    (dotsOpts : List (String × Style)) (ylim : Int × Int) :
    ∀ (ys : List String) (s : Store) (p : Axes × Nat) r,
      (∀ row ∈ data.rows, ∀ y ∈ ys, (data.rowValD y row).isInf = false) →
      (∃ df, getFrame s p.2 = .ok df ∧ df.cols = data.cols ∧
        ∀ r2 ∈ df.rows, r2 ∈ data.rows) →
      infLoop x dotsOpts ylim s p ys = .ok r → r.1 = p.1 := by
  intro ys
  induction ys with
  | nil => intro s p r _ _ h; cases h; rfl
  | cons y ys ih =>
    intro s p r hnoinf hinv h
    obtain ⟨df, hdf, hcols, hrows⟩ := hinv
    unfold infLoop at h
    rw [hdf] at h
    simp only [Bind.bind, Except.bind] at h
    cases hq : df.queryInf y with
    | error e => rw [hq] at h; simp at h
    | ok f =>
      rw [hq] at h
      simp only [] at h
      obtain ⟨i, hi, hfcols, hfdts, hfrows⟩ := queryInf_ok_inv df y f hq
      have hfr : f.rows = [] := by
        rw [hfrows]
        rw [List.filter_eq_nil]
        intro row hrow
        have hmem := hrows row hrow
        have hval : data.rowValD y row = row.getD i (.num 0) := by
          unfold DataFrame.rowValD DataFrame.colIdx
          unfold DataFrame.colIdx at hi
          rw [← hcols, hi]
        have hv2 := hnoinf row hmem y (by simp)
        rw [hval] at hv2
        simpa using hv2
      have hemp : f.resetIndex.rows.isEmpty = true := by
        unfold DataFrame.resetIndex
        rw [hfr]
        rfl
      rw [if_pos hemp] at h
      have hnext : ∃ df2, getFrame (s ++ [f.resetIndex]) (p.1, s.length).2 = .ok df2 ∧
          df2.cols = data.cols ∧ ∀ r2 ∈ df2.rows, r2 ∈ data.rows := by
        refine ⟨f.resetIndex, ?_, ?_, ?_⟩
        · unfold getFrame
          rw [List.get?_concat_length]
        · unfold DataFrame.resetIndex
          rw [hfcols, hcols]
        · unfold DataFrame.resetIndex
          rw [hfr]
          intro r2 hr2
          simp at hr2
      have hre := ih (s ++ [f.resetIndex]) (p.1, s.length) r
        (fun row hr y2 hy2 => hnoinf row hr y2 (by simp [hy2])) hnext h
      exact hre

theorem soPlotFacet_artists (data : DataFrame) (x : String) (fo : FacetOptions)
    (axes : List Axes) (h : soPlotFacet data x fo = .ok axes) :
    ∀ ax ∈ axes, ax.artists = [] := by
  unfold soPlotFacet at h
  cases hx : data.getColVals x with
  | error e => rw [hx] at h; simp [Bind.bind, Except.bind] at h
  | ok xs =>
    rw [hx] at h
    simp only [Bind.bind, Except.bind] at h
    cases hc : fo.col with
    | none =>
      cases hr : fo.row with
      | none =>
        rw [hc, hr] at h
        cases h
        intro ax hax
        simp at hax
        rw [hax]
        rfl
      | some rcol =>
        rw [hc, hr] at h
        simp only [] at h
        cases hrv : data.getColVals rcol with
        | error e => rw [hrv] at h; simp at h
        | ok rv =>
          rw [hrv] at h
          cases h
          intro ax hax
          obtain ⟨v, _, hv⟩ := List.mem_map.mp hax
          rw [← hv]
          rfl
    | some ccol =>
      cases hr : fo.row with
      | none =>
        rw [hc, hr] at h
        simp only [] at h
        cases hcv : data.getColVals ccol with
        | error e => rw [hcv] at h; simp at h
        | ok cv =>
          rw [hcv] at h
          cases h
          intro ax hax
          obtain ⟨v, _, hv⟩ := List.mem_map.mp hax
          rw [← hv]
          rfl
      | some rcol =>
        rw [hc, hr] at h
        simp only [] at h
        cases hcv : data.getColVals ccol with
        | error e => rw [hcv] at h; simp [Bind.bind, Except.bind] at h
        | ok cv =>
          rw [hcv] at h
          simp only [Bind.bind, Except.bind] at h
          cases hrv : data.getColVals rcol with
          | error e => rw [hrv] at h; simp at h
          | ok rv =>
            rw [hrv] at h
            cases h
            intro ax hax
            obtain ⟨v, _, hv⟩ := List.mem_map.mp hax
            rw [← hv]
            rfl

/-- C2 as amended: the legend is assembled from the last axis's labelled
artists without dedup, so it has exactly one entry per distinct series label
(in `y_dots ++ y_line` order, sized accordingly) provided the series labels
are distinct, legend-visible, and the last region re-renders no boundary
marker (no `y_dots` value in the dataset is infinite). -/
theorem C2_amended_legend (data : DataFrame) (x : String)
    (yDots yLine : List String) (dotsOpts lineOpts : List (String × Style))
    (fo : FacetOptions) (shareOpts : List (String × Bool))
    (scaleOpts : List (String × String)) (figOpts : FigOptions)
    (fig : Figure) (st : Store)
    (h : plot_result data x yDots yLine dotsOpts lineOpts fo shareOpts
      scaleOpts figOpts = .ok (fig, st))
    (hnodup : (yDots ++ yLine).Nodup)
    (hvis : ∀ y ∈ yDots ++ yLine, visibleLabel y = true)
    (hnoinf : ∀ row ∈ data.rows, ∀ y ∈ yDots, (data.rowValD y row).isInf = false) :
    ∃ lg, fig.legend = some lg ∧ lg.labels = yDots ++ yLine ∧
      lg.labels.Nodup ∧ lg.ncol = (yDots ++ yLine).length ∧
      lg.handles.length = lg.labels.length := by
  obtain ⟨axes, ids, s1, axes1, axes2, s2, lastAx, hax, hsub, hdr, hinf, hlast, hfig, hst⟩ :=
    plot_result_anatomy data x yDots yLine dotsOpts lineOpts fo shareOpts
      scaleOpts figOpts fig st h
  have hne2 : axes2 ≠ [] := by intro he; subst he; simp at hlast
  have hpos2 : 0 < axes2.length := List.length_pos.mpr hne2
  obtain ⟨hlen2, hget2⟩ :=
    infAll_spec scaleOpts x yDots dotsOpts (axes1.zip ids) s1 axes2 s2 hinf
  have hida : ids.length = axes.length :=
    ids_length_eq data fo axes ids s1
      (fun hcr => soPlotFacet_no_facets data x fo axes hcr.1 hcr.2 hax) hsub
  have h1a : axes1.length = axes.length := by
    rw [drawAll_length s1 x yDots yLine dotsOpts lineOpts _ _ hdr,
      List.length_zip, hida, min_self]
  have h2a : axes2.length = axes.length := by
    rw [hlen2, List.length_zip, hida, h1a, min_self]
  have hn : axes2.length - 1 < axes2.length := by omega
  have hn1 : axes2.length - 1 < axes1.length := by omega
  have hnid : axes2.length - 1 < ids.length := by omega
  have hna : axes2.length - 1 < axes.length := by omega
  have hzi : axes2.length - 1 < (axes1.zip ids).length := by
    rw [List.length_zip]
    simp only [lt_min_iff]
    omega
  have hza : axes2.length - 1 < (axes.zip ids).length := by
    rw [List.length_zip]
    simp only [lt_min_iff]
    omega
  have hlastEq : axes2.get ⟨axes2.length - 1, hn⟩ = lastAx := by
    rw [List.getLast?_eq_getElem?] at hlast
    have := List.getElem?_eq_getElem hn
    rw [this] at hlast
    simpa using hlast
  obtain ⟨sIn, sOut, hpres, hblk⟩ := hget2 (axes2.length - 1) hzi hn
  obtain ⟨axSc, r, hsc, hloop, heq2, _⟩ := infBlockAx_ok_inv _ _ _ _ _ _ _ _ hblk
  have hfst : ((axes1.zip ids).get ⟨axes2.length - 1, hzi⟩).1 =
      axes1.get ⟨axes2.length - 1, hn1⟩ := by
    simp [List.getElem_zip]
  have hsnd : ((axes1.zip ids).get ⟨axes2.length - 1, hzi⟩).2 =
      ids.get ⟨axes2.length - 1, hnid⟩ := by
    simp [List.getElem_zip]
  rw [hfst] at hsc
  rw [hsnd] at hloop
  have hscarts : axSc.artists = (axes1.get ⟨axes2.length - 1, hn1⟩).artists :=
    (applyScales_ok_inv _ _ _ hsc).1
  obtain ⟨df1, hdf1, hcols1, _, hrows1⟩ :=
    subset_frame_at data fo axes ids s1 hsub (axes2.length - 1) hnid
  have hr1 : r.1 = axSc := by
    have hinv : ∃ df, getFrame sIn (ids.get ⟨axes2.length - 1, hnid⟩) = .ok df ∧
        df.cols = data.cols ∧ ∀ r2 ∈ df.rows, r2 ∈ data.rows :=
      ⟨df1, getFrame_pres s1 sIn _ df1 hpres hdf1, hcols1, hrows1⟩
    exact infLoop_no_additions data x dotsOpts axSc.ylim yDots sIn
      (axSc, ids.get ⟨axes2.length - 1, hnid⟩) r hnoinf hinv hloop
  -- the last axis's artists are exactly the drawn series artists
  have hdxn := drawAll_get s1 x yDots yLine dotsOpts lineOpts _ _ hdr
    (axes2.length - 1) hza hn1
  obtain ⟨df0, hdf0, harts0, _⟩ := drawAx_artists _ _ _ _ _ _ _ _ hdxn
  have hfa : ((axes.zip ids).get ⟨axes2.length - 1, hza⟩).1 =
      axes.get ⟨axes2.length - 1, hna⟩ := by
    simp [List.getElem_zip]
  have haxart : (axes.get ⟨axes2.length - 1, hna⟩).artists = [] :=
    soPlotFacet_artists data x fo axes hax _ (List.get_mem axes (axes2.length - 1) hna)
  have hlastArts : lastAx.artists =
      yDots.map (fun y => (⟨y, (colValsD df0 x).zip (colValsD df0 y), false,
        optGet dotsOpts y⟩ : Artist)) ++
      yLine.map (fun y => (⟨y, (colValsD df0 x).zip (colValsD df0 y), true,
        optGet lineOpts y⟩ : Artist)) := by
    rw [← hlastEq]
    have hle : axes2.get ⟨axes2.length - 1, hn⟩ = { r.1 with ylim := axSc.ylim } := heq2
    rw [hle]
    show r.1.artists = _
    rw [hr1, hscarts, harts0, hfa, haxart]
    simp
  have hall : ∀ a ∈ lastAx.artists, visibleLabel a.label = true := by
    rw [hlastArts]
    intro a ha
    rcases List.mem_append.mp ha with hm | hm
    · obtain ⟨y, hy, he⟩ := List.mem_map.mp hm
      rw [← he]
      exact hvis y (List.mem_append_left _ hy)
    · obtain ⟨y, hy, he⟩ := List.mem_map.mp hm
      rw [← he]
      exact hvis y (List.mem_append_right _ hy)
  have hhandles : (getHandlesLabels lastAx).1 = lastAx.artists := by
    unfold getHandlesLabels
    exact List.filter_eq_self.mpr hall
  have hlabels : (getHandlesLabels lastAx).2 = yDots ++ yLine := by
    show ((lastAx.artists.filter (fun a => visibleLabel a.label)).map
      (fun a => a.label)) = yDots ++ yLine
    rw [List.filter_eq_self.mpr hall, hlastArts, List.map_append,
      List.map_map, List.map_map]
    show yDots.map (fun y => y) ++ yLine.map (fun y => y) = yDots ++ yLine
    simp
  subst hfig
  refine ⟨_, rfl, hlabels, ?_, ?_, ?_⟩
  · rw [hlabels]; exact hnodup
  · show (getHandlesLabels lastAx).1.length = (yDots ++ yLine).length
    rw [hhandles, hlastArts]
    simp
  · show (getHandlesLabels lastAx).1.length = (getHandlesLabels lastAx).2.length
    rw [hhandles, hlabels, hlastArts]
    simp

/-- Dataset for the C2 amended-claim witness. -/
def dW : DataFrame :=
  ⟨["x", "p", "q"], [.numT, .numT, .numT], [[.num 1, .num 2, .num 3]]⟩

/-- C2 amended witness: distinct finite series produce one legend entry per
label with `ncol` equal to the label count. -/
theorem C2_amended_legend_witness :
    ∃ lg, (figOf (plot_result dW "x" ["p"] ["q"] [] [] {} [] [] {})).legend =
        some lg ∧
      lg.labels = ["p"] ++ ["q"] ∧ lg.labels.Nodup ∧
      lg.ncol = (["p"] ++ ["q"]).length ∧
      lg.handles.length = lg.labels.length := by
  obtain ⟨⟨fig, st⟩, hp⟩ :
      ∃ p, plot_result dW "x" ["p"] ["q"] [] [] {} [] [] {} = .ok p := ⟨_, rfl⟩
  rw [hp]
  exact C2_amended_legend dW "x" ["p"] ["q"] [] [] {} [] [] {} fig st hp
    (by decide) (by decide) (by decide)

/-! ## Success lemmas: the render loops cannot fail on well-formed inputs -/

theorem getColVals_ok_of_isSome (df : DataFrame) (c : String)
    (h : (df.colIdx c).isSome = true) : df.getColVals c = .ok (colValsD df c) := by
  unfold DataFrame.getColVals colValsD
  cases hi : df.colIdx c with
  | none => rw [hi] at h; simp at h
  | some i => rfl

theorem colIdx_eq_of_cols (df : DataFrame) (data : DataFrame) (c : String)
    (h : df.cols = data.cols) : df.colIdx c = data.colIdx c := by
  unfold DataFrame.colIdx
  rw [h]

theorem setColClip_ok_of (df : DataFrame) (y : String) (lo hi : Int)
    (h : (df.colIdx y).isSome = true) :
    ∃ c, df.setColClip y lo hi = .ok c ∧ c.cols = df.cols ∧
      c.rows.length = df.rows.length := by
  unfold DataFrame.setColClip
  cases hi : df.colIdx y with
  | none => rw [hi] at h; simp at h
  | some i => exact ⟨_, rfl, rfl, by simp⟩

theorem colValsD_empty (df : DataFrame) (c : String) (h : df.rows = []) :
    colValsD df c = [] := by
  unfold colValsD
  cases df.colIdx c <;> simp [h]

theorem applyScales_ok_of (scaleOpts : List (String × String))
    (hscale : ∀ p ∈ scaleOpts, p.1 = "x" ∨ p.1 = "y") :
    ∀ ax, ∃ ax1, applyScales ax scaleOpts = .ok ax1 := by
  induction scaleOpts with
  | nil => intro ax; exact ⟨ax, rfl⟩
  | cons p opts ih =>
    intro ax
    unfold applyScales
    rcases hscale p (by simp) with hp | hp
    · rw [if_pos hp]
      exact ih (fun q hq => hscale q (by simp [hq])) _
    · by_cases hx : p.1 = "x"
      · rw [if_pos hx]
        exact ih (fun q hq => hscale q (by simp [hq])) _
      · rw [if_neg hx, if_pos hp]
        exact ih (fun q hq => hscale q (by simp [hq])) _

theorem drawCols_ok_of (df : DataFrame) (x : String)
    (opts : List (String × Style)) (line : Bool)
    (hx : (df.colIdx x).isSome = true) :
    ∀ (ys : List String), (∀ y ∈ ys, (df.colIdx y).isSome = true) →
      ∀ ax, ∃ ax1, drawCols df x opts line ax ys = .ok ax1 := by
  intro ys
  induction ys with
  | nil => intro _ ax; exact ⟨ax, rfl⟩
  | cons y ys ih =>
    intro hys ax
    unfold drawCols
    cases line with
    | false =>
      simp only [Bool.false_eq_true, reduceIte]
      have hs : scatterCol df ax x y (optGet opts y) = .ok (addArtist ax
          ⟨y, (colValsD df x).zip (colValsD df y), false, optGet opts y⟩) := by
        unfold scatterCol
        rw [getColVals_ok_of_isSome df x hx,
          getColVals_ok_of_isSome df y (hys y (by simp))]
        rfl
      rw [hs]
      simp only [Bind.bind, Except.bind]
      exact ih (fun y2 hy2 => hys y2 (by simp [hy2])) _
    | true =>
      simp only [reduceIte]
      have hs : plotCol df ax x y (optGet opts y) = .ok (addArtist ax
          ⟨y, (colValsD df x).zip (colValsD df y), true, optGet opts y⟩) := by
        unfold plotCol
        rw [getColVals_ok_of_isSome df x hx,
          getColVals_ok_of_isSome df y (hys y (by simp))]
        rfl
      rw [hs]
      simp only [Bind.bind, Except.bind]
      exact ih (fun y2 hy2 => hys y2 (by simp [hy2])) _

theorem drawAx_ok_of (s : Store) (data : DataFrame) (x : String)
    (yDots yLine : List String) (dotsOpts lineOpts : List (String × Style))
    (p : Axes × Nat)
    (hx : x ∈ data.cols) (hys : ∀ y ∈ yDots ++ yLine, y ∈ data.cols)
    (hfr : ∃ df, getFrame s p.2 = .ok df ∧ df.cols = data.cols) :
    ∃ ax1, drawAx s x yDots yLine dotsOpts lineOpts p = .ok ax1 := by
  obtain ⟨df, hdf, hcols⟩ := hfr
  have hx2 : (df.colIdx x).isSome = true := by
    rw [colIdx_eq_of_cols df data x hcols]
    exact (colIdx_isSome_iff data x).mpr hx
  have hy2 : ∀ y ∈ yDots ++ yLine, (df.colIdx y).isSome = true := by
    intro y hy
    rw [colIdx_eq_of_cols df data y hcols]
    exact (colIdx_isSome_iff data y).mpr (hys y hy)
  unfold drawAx
  rw [hdf]
  simp only [Bind.bind, Except.bind]
  obtain ⟨axm, hm⟩ := drawCols_ok_of df x dotsOpts false hx2 yDots
    (fun y hy => hy2 y (List.mem_append_left _ hy)) p.1
  rw [hm]
  exact drawCols_ok_of df x lineOpts true hx2 yLine
    (fun y hy => hy2 y (List.mem_append_right _ hy)) axm

theorem drawAll_ok_of (s : Store) (data : DataFrame) (x : String)
    (yDots yLine : List String) (dotsOpts lineOpts : List (String × Style))
    (hx : x ∈ data.cols) (hys : ∀ y ∈ yDots ++ yLine, y ∈ data.cols) :
    ∀ (ps : List (Axes × Nat)),
      (∀ p ∈ ps, ∃ df, getFrame s p.2 = .ok df ∧ df.cols = data.cols) →
      ∃ axes1, drawAll s x yDots yLine dotsOpts lineOpts ps = .ok axes1 := by
  intro ps
  induction ps with
  | nil => intro _; exact ⟨[], rfl⟩
  | cons p ps ih =>
    intro hfr
    unfold drawAll
    obtain ⟨ax, hax⟩ := drawAx_ok_of s data x yDots yLine dotsOpts lineOpts p
      hx hys (hfr p (by simp))
    rw [hax]
    simp only [Bind.bind, Except.bind]
    obtain ⟨rest, hrest⟩ := ih (fun q hq => hfr q (by simp [hq]))
    rw [hrest]
    exact ⟨ax :: rest, rfl⟩

theorem infLoop_ok_of (data : DataFrame) (x : String)
    (dotsOpts : List (String × Style)) (ylim : Int × Int)
    (hxc : x ∈ data.cols) :
    ∀ (ys : List String), (∀ y ∈ ys, y ∈ data.cols) →
      ∀ (s : Store) (p : Axes × Nat),
      (∃ df, getFrame s p.2 = .ok df ∧ df.cols = data.cols) →
      ∃ r, infLoop x dotsOpts ylim s p ys = .ok r := by
  intro ys
  induction ys with
  | nil => intro _ s p _; exact ⟨(p.1, p.2, s), rfl⟩
  | cons y ys ih =>
    intro hys s p hfr
    obtain ⟨df, hdf, hcols⟩ := hfr
    have hyi : (df.colIdx y).isSome = true := by
      rw [colIdx_eq_of_cols df data y hcols]
      exact (colIdx_isSome_iff data y).mpr (hys y (by simp))
    unfold infLoop
    rw [hdf]
    simp only [Bind.bind, Except.bind]
    have hq : ∃ f, df.queryInf y = .ok f ∧ f.cols = df.cols := by
      unfold DataFrame.queryInf
      cases hi : df.colIdx y with
      | none => rw [hi] at hyi; simp at hyi
      | some i => exact ⟨_, rfl, rfl⟩
    obtain ⟨f, hqe, hfc⟩ := hq
    rw [hqe]
    simp only []
    by_cases hemp : f.resetIndex.rows.isEmpty = true
    · rw [if_pos hemp]
      refine ih (fun y2 hy2 => hys y2 (by simp [hy2])) _ _ ?_
      refine ⟨f.resetIndex, ?_, ?_⟩
      · unfold getFrame
        rw [List.get?_concat_length]
      · show f.cols = data.cols
        rw [hfc, hcols]
    · rw [if_neg hemp]
      have hg1 : getFrame (s ++ [f.resetIndex]) s.length = .ok f.resetIndex := by
        unfold getFrame
        rw [List.get?_concat_length]
      rw [hg1]
      simp only []
      have hyi2 : (f.resetIndex.colIdx y).isSome = true := by
        show (f.colIdx y).isSome = true
        rw [colIdx_eq_of_cols f df y hfc]
        exact hyi
      obtain ⟨cl, hcl, hclc, _⟩ := setColClip_ok_of f.resetIndex y ylim.1 ylim.2 hyi2
      rw [hcl]
      simp only []
      have hg2 : getFrame ((s ++ [f.resetIndex]).set s.length cl) s.length = .ok cl := by
        unfold getFrame
        rw [List.get?_set_eq_of_lt cl (by simp)]
      rw [hg2]
      simp only []
      have hclcols : cl.cols = data.cols := by
        rw [hclc]
        show f.cols = data.cols
        rw [hfc, hcols]
      have hsc : ∃ ax1, scatterCol cl p.1 x y (optGet dotsOpts y) = .ok ax1 := by
        unfold scatterCol
        rw [getColVals_ok_of_isSome cl x
          (by rw [colIdx_eq_of_cols cl data x hclcols]
              exact (colIdx_isSome_iff data x).mpr hxc)]
        rw [getColVals_ok_of_isSome cl y
          (by rw [colIdx_eq_of_cols cl data y hclcols]
              exact (colIdx_isSome_iff data y).mpr (hys y (by simp)))]
        exact ⟨_, rfl⟩
      obtain ⟨ax1, hax1⟩ := hsc
      rw [hax1]
      simp only []
      refine ih (fun y2 hy2 => hys y2 (by simp [hy2])) _ _ ?_
      refine ⟨cl, ?_, hclcols⟩
      unfold getFrame
      rw [List.get?_set_eq_of_lt cl (by simp)]

theorem infBlockAx_ok_of (data : DataFrame) (scaleOpts : List (String × String))
    (x : String) (yDots : List String) (dotsOpts : List (String × Style))
    (s : Store) (p : Axes × Nat)
    (hxc : x ∈ data.cols) (hys : ∀ y ∈ yDots, y ∈ data.cols)
    (hscale : ∀ q ∈ scaleOpts, q.1 = "x" ∨ q.1 = "y")
    (hfr : ∃ df, getFrame s p.2 = .ok df ∧ df.cols = data.cols) :
    ∃ r, infBlockAx scaleOpts x yDots dotsOpts s p = .ok r := by
  unfold infBlockAx
  obtain ⟨ax1, hax1⟩ := applyScales_ok_of scaleOpts hscale p.1
  rw [hax1]
  simp only [Bind.bind, Except.bind]
  obtain ⟨r, hr⟩ := infLoop_ok_of data x dotsOpts ax1.ylim hxc yDots hys s
    (ax1, p.2) hfr
  rw [hr]
  exact ⟨_, rfl⟩

theorem infAll_ok_of (data : DataFrame) (scaleOpts : List (String × String))
    (x : String) (yDots : List String) (dotsOpts : List (String × Style))
    (hxc : x ∈ data.cols) (hys : ∀ y ∈ yDots, y ∈ data.cols)
    (hscale : ∀ q ∈ scaleOpts, q.1 = "x" ∨ q.1 = "y") :
    ∀ (ps : List (Axes × Nat)) (s : Store),
      (∀ p ∈ ps, ∃ df, getFrame s p.2 = .ok df ∧ df.cols = data.cols) →
      ∃ r, infAll scaleOpts x yDots dotsOpts s ps = .ok r := by
  intro ps
  induction ps with
  | nil => intro s _; exact ⟨([], s), rfl⟩
  | cons p ps ih =>
    intro s hfr
    unfold infAll
    obtain ⟨r, hr⟩ := infBlockAx_ok_of data scaleOpts x yDots dotsOpts s p hxc
      hys hscale (hfr p (by simp))
    rw [hr]
    simp only [Bind.bind, Except.bind]
    obtain ⟨ax, s1⟩ := r
    have hpres : StorePres s s1 := infBlockAx_pres _ _ _ _ _ _ _ _ hr
    obtain ⟨r2, hr2⟩ := ih s1 (fun q hq => by
      obtain ⟨df, hdf, hc⟩ := hfr q (by simp [hq])
      exact ⟨df, getFrame_pres s s1 _ df hpres hdf, hc⟩)
    rw [hr2]
    exact ⟨_, rfl⟩

/-- With an empty frame the boundary-marker loop adds nothing. -/
theorem infLoop_empty_frame (x : String) (dotsOpts : List (String × Style))
    (ylim : Int × Int) :
    ∀ (ys : List String) (s : Store) (p : Axes × Nat) r,
      (∃ df, getFrame s p.2 = .ok df ∧ df.rows = []) →
      infLoop x dotsOpts ylim s p ys = .ok r → r.1 = p.1 := by
  intro ys
  induction ys with
  | nil => intro s p r _ h; cases h; rfl
  | cons y ys ih =>
    intro s p r hinv h
    obtain ⟨df, hdf, hrows⟩ := hinv
    unfold infLoop at h
    rw [hdf] at h
    simp only [Bind.bind, Except.bind] at h
    cases hq : df.queryInf y with
    | error e => rw [hq] at h; simp at h
    | ok f =>
      rw [hq] at h
      simp only [] at h
      obtain ⟨i, hi, hfcols, hfdts, hfrows⟩ := queryInf_ok_inv df y f hq
      have hfr : f.rows = [] := by
        rw [hfrows, hrows]
        rfl
      have hemp : f.resetIndex.rows.isEmpty = true := by
        show f.rows.isEmpty = true
        rw [hfr]
        rfl
      rw [if_pos hemp] at h
      have hre := ih (s ++ [f.resetIndex]) (p.1, s.length) r
        (⟨f.resetIndex, by unfold getFrame; rw [List.get?_concat_length], hfr⟩) h
      exact hre

/-- Every element of a zip with the id list carries an id from the list. -/
theorem zip_frames_ok (data : DataFrame) (fo : FacetOptions) (axes' : List Axes)
    (axes : List Axes) (ids : List Nat) (s1 : Store)
    (hsub : ((facetBy fo).isEmpty = true ∧ ids = [0] ∧ s1 = [data]) ∨
      ((facetBy fo).isEmpty = false ∧
        buildSubsets [data] data (facetBy fo) axes = .ok (ids, s1))) :
    ∀ p ∈ axes'.zip ids, ∃ df, getFrame s1 p.2 = .ok df ∧ df.cols = data.cols := by
  intro p hp
  obtain ⟨j, hjlt, hj⟩ := List.mem_iff_getElem.mp hp
  have hjid : j < ids.length := by
    rw [List.length_zip] at hjlt
    omega
  have hp2 : p.2 = ids.get ⟨j, hjid⟩ := by
    rw [← hj]
    simp [List.getElem_zip]
  obtain ⟨df, hdf, hcols, _, _⟩ := subset_frame_at data fo axes ids s1 hsub j hjid
  rw [hp2]
  exact ⟨df, hdf, hcols⟩

/-- C8: a facet-key combination whose exact-match filter yields zero rows is
not an error: under the usual well-formedness side conditions the whole call
still succeeds and the region built from the empty subset carries only
artists with no points (an empty but valid region). -/
theorem C8_empty_subset_ok (data : DataFrame) (x : String)
    (yDots yLine : List String) (dotsOpts lineOpts : List (String × Style))
    (fo : FacetOptions) (shareOpts : List (String × Bool))
    (scaleOpts : List (String × String)) (figOpts : FigOptions)
    (axes : List Axes) (ids : List Nat) (s1 : Store) (i : Nat)
    (hax : soPlotFacet data x fo = .ok axes)
    (hkeys : (facetBy fo).isEmpty = false)
    (hbs : buildSubsets [data] data (facetBy fo) axes = .ok (ids, s1))
    (hne : axes ≠ [])
    (hx : x ∈ data.cols) (hys : ∀ y ∈ yDots ++ yLine, y ∈ data.cols)
    (hscale : ∀ q ∈ scaleOpts, q.1 = "x" ∨ q.1 = "y")
    (hi : i < ids.length)
    (hempty : ∃ df, getFrame s1 (ids.get ⟨i, hi⟩) = .ok df ∧ df.rows = []) :
    ∃ fig st, plot_result data x yDots yLine dotsOpts lineOpts fo shareOpts
        scaleOpts figOpts = .ok (fig, st) ∧
      ∃ hlen : i < fig.axes.length,
        ∀ a ∈ (fig.axes.get ⟨i, hlen⟩).artists, a.pts = [] := by
  have hsub : ((facetBy fo).isEmpty = true ∧ ids = [0] ∧ s1 = [data]) ∨
      ((facetBy fo).isEmpty = false ∧
        buildSubsets [data] data (facetBy fo) axes = .ok (ids, s1)) :=
    Or.inr ⟨hkeys, hbs⟩
  have hida : ids.length = axes.length :=
    ids_length_eq data fo axes ids s1
      (fun hcr => soPlotFacet_no_facets data x fo axes hcr.1 hcr.2 hax) hsub
  obtain ⟨axes1, hdr⟩ := drawAll_ok_of s1 data x yDots yLine dotsOpts lineOpts
    hx hys (axes.zip ids) (zip_frames_ok data fo axes axes ids s1 hsub)
  have h1a : axes1.length = axes.length := by
    rw [drawAll_length s1 x yDots yLine dotsOpts lineOpts _ _ hdr,
      List.length_zip, hida, min_self]
  obtain ⟨r2, hinf⟩ := infAll_ok_of data scaleOpts x yDots dotsOpts hx
    (fun y hy => hys y (List.mem_append_left _ hy)) hscale (axes1.zip ids) s1
    (zip_frames_ok data fo axes1 axes ids s1 hsub)
  obtain ⟨axes2, s2⟩ := r2
  obtain ⟨hlen2, hget2⟩ :=
    infAll_spec scaleOpts x yDots dotsOpts (axes1.zip ids) s1 axes2 s2 hinf
  have h2a : axes2.length = axes.length := by
    rw [hlen2, List.length_zip, hida, h1a, min_self]
  have hne2 : axes2 ≠ [] := by
    intro he
    rw [he] at h2a
    exact hne (List.length_eq_zero.mp h2a.symm)
  obtain ⟨lastAx, hlast⟩ := Option.isSome_iff_exists.mp
    ((List.getLast?_isSome).mpr hne2)
  refine ⟨⟨axes2, some ⟨(getHandlesLabels lastAx).1, (getHandlesLabels lastAx).2,
    (getHandlesLabels lastAx).1.length, "lower center"⟩, true, shareOpts,
    figOpts⟩, s2, ?_, ?_⟩
  · unfold plot_result
    rw [hax]
    simp only [Bind.bind, Except.bind]
    rw [hkeys]
    simp only [Bool.false_eq_true, if_false]
    rw [hbs]
    simp only [Bind.bind, Except.bind]
    rw [hdr]
    simp only [Bind.bind, Except.bind]
    rw [hinf]
    simp only [Bind.bind, Except.bind]
    rw [hlast]
  · have hia2 : i < axes2.length := by omega
    have hia1 : i < axes1.length := by omega
    have hzi : i < (axes1.zip ids).length := by
      rw [List.length_zip]
      simp only [lt_min_iff]
      omega
    have hza : i < (axes.zip ids).length := by
      rw [List.length_zip]
      simp only [lt_min_iff]
      omega
    refine ⟨hia2, ?_⟩
    obtain ⟨df0, hdf0, hrows0⟩ := hempty
    obtain ⟨sIn, sOut, hpres, hblk⟩ := hget2 i hzi hia2
    obtain ⟨axSc, r, hsc, hloop, heq2, _⟩ := infBlockAx_ok_inv _ _ _ _ _ _ _ _ hblk
    have hfst : ((axes1.zip ids).get ⟨i, hzi⟩).1 = axes1.get ⟨i, hia1⟩ := by
      simp [List.getElem_zip]
    have hsnd : ((axes1.zip ids).get ⟨i, hzi⟩).2 = ids.get ⟨i, hi⟩ := by
      simp [List.getElem_zip]
    rw [hfst] at hsc
    rw [hsnd] at hloop
    have hr1 : r.1 = axSc :=
      infLoop_empty_frame x dotsOpts axSc.ylim yDots sIn (axSc, ids.get ⟨i, hi⟩) r
        ⟨df0, getFrame_pres s1 sIn _ df0 hpres hdf0, hrows0⟩ hloop
    have hscarts : axSc.artists = (axes1.get ⟨i, hia1⟩).artists :=
      (applyScales_ok_inv _ _ _ hsc).1
    -- the drawn artists of the empty region have no points
    have hdxn := drawAll_get s1 x yDots yLine dotsOpts lineOpts _ _ hdr i hza hia1
    obtain ⟨df, hdf, harts, _⟩ := drawAx_artists _ _ _ _ _ _ _ _ hdxn
    have hsnd2 : ((axes.zip ids).get ⟨i, hza⟩).2 = ids.get ⟨i, hi⟩ := by
      simp [List.getElem_zip]
    rw [hsnd2, hdf0] at hdf
    have hdfeq : df0 = df := by simpa using hdf
    subst hdfeq
    have hna : i < axes.length := by omega
    have hfsta : ((axes.zip ids).get ⟨i, hza⟩).1 = axes.get ⟨i, hna⟩ := by
      simp [List.getElem_zip]
    have haxart : (axes.get ⟨i, hna⟩).artists = [] :=
      soPlotFacet_artists data x fo axes hax _ (List.get_mem axes i hna)
    have hartfin : (axes2.get ⟨i, hia2⟩).artists =
        (axes1.get ⟨i, hia1⟩).artists := by
      have hle : axes2.get ⟨i, hia2⟩ = { r.1 with ylim := axSc.ylim } := heq2
      rw [hle]
      show r.1.artists = _
      rw [hr1, hscarts]
    show ∀ a ∈ (axes2.get ⟨i, hia2⟩).artists, a.pts = []
    rw [hartfin, harts, hfsta, haxart, colValsD_empty df0 x hrows0]
    intro a ha
    simp only [List.nil_append, List.mem_append] at ha
    rcases ha with hm | hm <;>
    · obtain ⟨y, _, he⟩ := List.mem_map.mp hm
      rw [← he]
      simp

/-- Dataset for the C8 witness: the row-column combination (20, 2) is absent. -/
def d8 : DataFrame :=
  ⟨["c", "r", "x", "a"], [.numT, .numT, .numT, .numT],
    [[.num 10, .num 1, .num 0, .num 5],
     [.num 20, .num 1, .num 0, .num 6],
     [.num 10, .num 2, .num 0, .num 7]]⟩

/-- A subset frame of `d8` with the given rows. -/
def d8sub (rows : List (List EVal)) : DataFrame :=
  ⟨["c", "r", "x", "a"], [.numT, .numT, .numT, .numT], rows⟩

/-- C8 witness: on `d8` with `col = "c"`, `row = "r"` the grid region for the
absent combination (20, 2) (region index 2, subset handle 3) renders with no
points and the whole call succeeds. -/
theorem C8_empty_subset_ok_witness :
    ∃ fig st, plot_result d8 "x" ["a"] [] [] [] ⟨some "c", some "r", none⟩ []
        [] {} = .ok (fig, st) ∧
      ∃ hlen : 2 < fig.axes.length,
        ∀ a ∈ (fig.axes.get ⟨2, hlen⟩).artists, a.pts = [] :=
  C8_empty_subset_ok d8 "x" ["a"] [] [] [] ⟨some "c", some "r", none⟩ [] [] {}
    [mkAxes "20 | 1", mkAxes "10 | 1", mkAxes "20 | 2", mkAxes "10 | 2"]
    [1, 2, 3, 4]
    [d8,
     d8sub [[.num 20, .num 1, .num 0, .num 6]],
     d8sub [[.num 10, .num 1, .num 0, .num 5]],
     d8sub [],
     d8sub [[.num 10, .num 2, .num 0, .num 7]]]
    2 rfl rfl (by decide) (by decide) (by decide) (by decide) (by simp) (by decide)
    ⟨d8sub [], by decide, by decide⟩

/-! ## C4 machinery: the facet grid partitions the dataset -/

/-- The facet-key combinations the layout engine enumerates, computed
directly from the dataset (one list `[col-value, row-value]` per region, in
region order). -/
def facetCombosOf (data : DataFrame) (fo : FacetOptions) : List (List EVal) :=
  match fo.col, fo.row with
  | none, none => []
  | some c, none => (levelsOf (colValsD data c)).map (fun v => [v])
  | none, some r => (levelsOf (colValsD data r)).map (fun v => [v])
  | some c, some r =>
    gridCombos (levelsOf (colValsD data c)) (levelsOf (colValsD data r))

/-- Modelled from the spec: "the number of distinct value-combinations of
those keys present in the data" — the distinct facet-key tuples realized by
the rows. -/
def distinctCombosPresent (df : DataFrame) (keys : List String) : List (List EVal) :=
  (df.rows.map (fun row => keys.map (fun k => df.rowValD k row))).dedup

theorem gridCombos_eq (colLv rowLv : List EVal) :
    gridCombos colLv rowLv = (rowLv ×ˢ colLv).map (fun p => [p.2, p.1]) := rfl

/-- A predicate holding at exactly one list element has `countP` one on any
duplicate-free list containing that element. -/
theorem countP_unique {α : Type} (g : α → Bool) (v0 : α)
    (hg : ∀ v, g v = true ↔ v = v0) :
    ∀ l : List α, l.Nodup → v0 ∈ l → l.countP g = 1 := by
  intro l
  induction l with
  | nil => intro _ hm; simp at hm
  | cons b l ih =>
    intro hnd hmem
    rw [List.countP_cons]
    by_cases hb : b = v0
    · subst hb
      have h0 : l.countP g = 0 := by
        rw [List.countP_eq_zero]
        intro v hv hgv
        rw [(hg v).mp hgv] at hv
        exact (List.nodup_cons.mp hnd).1 hv
      rw [h0, (hg b).mpr rfl]
      rfl
    · have hmem2 : v0 ∈ l := by
        rcases List.mem_cons.mp hmem with he | ht
        · exact absurd he.symm hb
        · exact ht
      have hgb : g b = false := by
        cases hgbv : g b with
        | false => rfl
        | true => exact absurd ((hg b).mp hgbv) hb
      rw [hgb]
      simp [ih (List.nodup_cons.mp hnd).2 hmem2]

theorem count_filter_ite {β : Type} [DecidableEq β] (p : β → Bool) (b : β) :
    ∀ rows : List β, (rows.filter p).count b =
      if p b = true then rows.count b else 0 := by
  intro rows
  induction rows with
  | nil => simp
  | cons a rows ih =>
    by_cases ha : p a = true
    · rw [List.filter_cons_of_pos ha]
      by_cases hab : a = b
      · subst hab
        rw [List.count_cons_self, List.count_cons_self, ih, if_pos ha, if_pos ha]
      · rw [List.count_cons_of_ne (fun he => hab he.symm), ih,
          List.count_cons_of_ne (fun he => hab he.symm)]
    · rw [List.filter_cons_of_neg (by simp [ha])]
      by_cases hab : a = b
      · subst hab
        rw [List.count_cons_self, ih, if_neg ha, if_neg ha]
      · rw [ih, List.count_cons_of_ne (fun he => hab he.symm)]

theorem sum_map_ite {α : Type} (pred : α → Bool) (k : Nat) :
    ∀ combos : List α,
      (combos.map (fun c => if pred c = true then k else 0)).sum =
        k * combos.countP pred := by
  intro combos
  induction combos with
  | nil => simp
  | cons c combos ih =>
    rw [List.map_cons, List.sum_cons, ih, List.countP_cons]
    by_cases hc : pred c = true
    · rw [if_pos hc, if_pos hc]
      ring
    · rw [if_neg hc, if_neg hc]
      ring

/-- Filtering the rows once per combination and flattening yields a
permutation of the rows, provided every row matches exactly one
combination. -/
theorem perm_flatten_filters {α β : Type} [DecidableEq β]
    (rows : List β) (combos : List α) (pred : α → β → Bool)
    (huniq : ∀ row ∈ rows, combos.countP (fun c => pred c row) = 1) :
    ((combos.map (fun c => rows.filter (fun row => pred c row))).flatten).Perm
      rows := by
  rw [List.perm_iff_count]
  intro b
  rw [List.count_flatten, List.map_map]
  have hmaps : (List.count b ∘ fun c => rows.filter (fun row => pred c row)) =
      fun c => if pred c b = true then rows.count b else 0 := by
    funext c
    exact count_filter_ite (fun row => pred c row) b rows
  rw [hmaps, sum_map_ite (fun c => pred c b) (rows.count b)]
  by_cases hb : b ∈ rows
  · rw [huniq b hb]
    ring
  · rw [List.count_eq_zero_of_not_mem hb]
    ring

theorem colIdx_some_of_mem (data : DataFrame) (c : String) (hc : c ∈ data.cols) :
    ∃ i, data.colIdx c = some i := by
  have hs := (colIdx_isSome_iff data c).mpr hc
  cases hx : data.colIdx c with
  | none => rw [hx] at hs; simp at hs
  | some i => exact ⟨i, rfl⟩

theorem rowValD_mem_levels (data : DataFrame) (c : String) (row : List EVal)
    (hc : c ∈ data.cols) (hrow : row ∈ data.rows) :
    data.rowValD c row ∈ levelsOf (colValsD data c) := by
  obtain ⟨i, hci⟩ := colIdx_some_of_mem data c hc
  unfold levelsOf
  rw [List.mem_dedup]
  unfold DataFrame.rowValD colValsD
  rw [hci]
  exact List.mem_map_of_mem _ hrow

/-- Every row of the dataset matches exactly one combination of the facet
grid. -/
theorem facetCombos_countP (data : DataFrame) (fo : FacetOptions)
    (hc : ∀ c, fo.col = some c → c ∈ data.cols)
    (hr : ∀ r, fo.row = some r → r ∈ data.cols)
    (hkeys : (facetBy fo).isEmpty = false)
    (row : List EVal) (hrow : row ∈ data.rows) :
    (facetCombosOf data fo).countP
      (fun combo => matchCombo data (facetBy fo) combo row) = 1 := by
  cases hco : fo.col with
  | none =>
    cases hro : fo.row with
    | none =>
      exact absurd ((facetBy_empty_iff fo).mpr ⟨hco, hro⟩) (by rw [hkeys]; simp)
    | some r =>
      have hfc : facetCombosOf data fo =
          (levelsOf (colValsD data r)).map (fun v => [v]) := by
        unfold facetCombosOf; rw [hco, hro]
      have hkeq : facetBy fo = [r] := by
        unfold facetBy; rw [hco, hro]; rfl
      rw [hfc, hkeq, List.countP_map]
      refine countP_unique _ (data.rowValD r row) ?_ _ (List.nodup_dedup _)
        (rowValD_mem_levels data r row (hr r hro) hrow)
      intro v
      show matchCombo data [r] [v] row = true ↔ v = data.rowValD r row
      unfold matchCombo
      constructor
      · intro hh
        simp at hh
        exact hh.symm
      · intro hh
        rw [hh]
        simp
  | some c =>
    cases hro : fo.row with
    | none =>
      have hfc : facetCombosOf data fo =
          (levelsOf (colValsD data c)).map (fun v => [v]) := by
        unfold facetCombosOf; rw [hco, hro]
      have hkeq : facetBy fo = [c] := by
        unfold facetBy; rw [hco, hro]; rfl
      rw [hfc, hkeq, List.countP_map]
      refine countP_unique _ (data.rowValD c row) ?_ _ (List.nodup_dedup _)
        (rowValD_mem_levels data c row (hc c hco) hrow)
      intro v
      show matchCombo data [c] [v] row = true ↔ v = data.rowValD c row
      unfold matchCombo
      constructor
      · intro hh
        simp at hh
        exact hh.symm
      · intro hh
        rw [hh]
        simp
    | some r =>
      have hfc : facetCombosOf data fo = ((levelsOf (colValsD data r)) ×ˢ
          (levelsOf (colValsD data c))).map (fun p => [p.2, p.1]) := by
        unfold facetCombosOf
        rw [hco, hro]
        rfl
      have hkeq : facetBy fo = [c, r] := by
        unfold facetBy; rw [hco, hro]; rfl
      rw [hfc, hkeq, List.countP_map]
      refine countP_unique _ (data.rowValD r row, data.rowValD c row) ?_ _
        ((List.nodup_dedup _).product (List.nodup_dedup _))
        (List.mem_product.mpr
          ⟨rowValD_mem_levels data r row (hr r hro) hrow,
           rowValD_mem_levels data c row (hc c hco) hrow⟩)
      intro p
      show matchCombo data [c, r] [p.2, p.1] row = true ↔
        p = (data.rowValD r row, data.rowValD c row)
      unfold matchCombo
      obtain ⟨p1, p2⟩ := p
      constructor
      · intro hh
        simp at hh
        rw [hh.1, hh.2]
      · intro hh
        simp only [Prod.mk.injEq] at hh
        rw [hh.1, hh.2]
        simp

/-- In a keyed layout the number of axes equals the number of grid
combinations, and the facet keys are columns of the data. -/
theorem soPlotFacet_combos_len (data : DataFrame) (x : String)
    (fo : FacetOptions) (axes : List Axes)
    (h : soPlotFacet data x fo = .ok axes) :
    axes.length = (facetCombosOf data fo).length ∨
      (fo.col = none ∧ fo.row = none) := by
  unfold soPlotFacet at h
  cases hx : data.getColVals x with
  | error e => rw [hx] at h; simp [Bind.bind, Except.bind] at h
  | ok xs =>
    rw [hx] at h
    simp only [Bind.bind, Except.bind] at h
    cases hco : fo.col with
    | none =>
      cases hro : fo.row with
      | none => exact Or.inr ⟨rfl, rfl⟩
      | some r =>
        rw [hco, hro] at h
        simp only [] at h
        cases hrv : data.getColVals r with
        | error e => rw [hrv] at h; simp at h
        | ok rv =>
          rw [hrv] at h
          cases h
          refine Or.inl ?_
          have : rv = colValsD data r := getColVals_ok_imp data r rv hrv
          subst this
          unfold facetCombosOf
          rw [hco, hro]
          simp
    | some c =>
      cases hro : fo.row with
      | none =>
        rw [hco, hro] at h
        simp only [] at h
        cases hcv : data.getColVals c with
        | error e => rw [hcv] at h; simp at h
        | ok cv =>
          rw [hcv] at h
          cases h
          refine Or.inl ?_
          have : cv = colValsD data c := getColVals_ok_imp data c cv hcv
          subst this
          unfold facetCombosOf
          rw [hco, hro]
          simp
      | some r =>
        rw [hco, hro] at h
        simp only [] at h
        cases hcv : data.getColVals c with
        | error e => rw [hcv] at h; simp [Bind.bind, Except.bind] at h
        | ok cv =>
          rw [hcv] at h
          simp only [Bind.bind, Except.bind] at h
          cases hrv : data.getColVals r with
          | error e => rw [hrv] at h; simp at h
          | ok rv =>
            rw [hrv] at h
            cases h
            refine Or.inl ?_
            have hcve : cv = colValsD data c := getColVals_ok_imp data c cv hcv
            have hrve : rv = colValsD data r := getColVals_ok_imp data r rv hrv
            subst hcve
            subst hrve
            unfold facetCombosOf
            rw [hco, hro]
            simp

/-- The facet keys of a successful keyed layout are columns of the data. -/
theorem soPlotFacet_keys_cols (data : DataFrame) (x : String)
    (fo : FacetOptions) (axes : List Axes)
    (h : soPlotFacet data x fo = .ok axes) :
    (∀ c, fo.col = some c → c ∈ data.cols) ∧
      (∀ r, fo.row = some r → r ∈ data.cols) := by
  unfold soPlotFacet at h
  cases hx : data.getColVals x with
  | error e => rw [hx] at h; simp [Bind.bind, Except.bind] at h
  | ok xs =>
    rw [hx] at h
    simp only [Bind.bind, Except.bind] at h
    cases hco : fo.col with
    | none =>
      cases hro : fo.row with
      | none =>
        refine ⟨fun c hc => ?_, fun r hrr => ?_⟩
        · exact absurd hc (by simp)
        · exact absurd hrr (by simp)
      | some r =>
        rw [hco, hro] at h
        simp only [] at h
        cases hrv : data.getColVals r with
        | error e => rw [hrv] at h; simp at h
        | ok rv =>
          refine ⟨fun c hc => ?_, fun r2 hrr => ?_⟩
          · exact absurd hc (by simp)
          · cases hrr
            exact (getColVals_ok_iff data _).mp ⟨rv, hrv⟩
    | some c =>
      cases hro : fo.row with
      | none =>
        rw [hco, hro] at h
        simp only [] at h
        cases hcv : data.getColVals c with
        | error e => rw [hcv] at h; simp at h
        | ok cv =>
          refine ⟨fun c2 hc => ?_, fun r hrr => ?_⟩
          · cases hc
            exact (getColVals_ok_iff data _).mp ⟨cv, hcv⟩
          · exact absurd hrr (by simp)
      | some r =>
        rw [hco, hro] at h
        simp only [] at h
        cases hcv : data.getColVals c with
        | error e => rw [hcv] at h; simp [Bind.bind, Except.bind] at h
        | ok cv =>
          rw [hcv] at h
          simp only [Bind.bind, Except.bind] at h
          cases hrv : data.getColVals r with
          | error e => rw [hrv] at h; simp at h
          | ok rv =>
            refine ⟨fun c2 hc => ?_, fun r2 hrr => ?_⟩
            · cases hc
              exact (getColVals_ok_iff data _).mp ⟨cv, hcv⟩
            · cases hrr
              exact (getColVals_ok_iff data _).mp ⟨rv, hrv⟩

/-- Dataset for the C4 counterexample/witness: three of the four (c, r)
combinations occur. -/
def d4 : DataFrame :=
  ⟨["c", "r", "x", "a"], [.numT, .numT, .numT, .numT],
    [[.num 1, .num 1, .num 0, .num 0],
     [.num 2, .num 1, .num 0, .num 0],
     [.num 1, .num 2, .num 0, .num 0]]⟩

/-- C4 counterexample: with both `col` and `row` configured the layout engine
builds the full grid, so `d4` yields 4 regions although only 3 distinct
facet-key combinations are present in the data, contradicting the claim's
equality. -/
theorem C4_counterexample :
    (plot_result d4 "x" [] [] [] [] ⟨some "c", some "r", none⟩ [] [] {}).map
      (fun p => p.1.axes.length) = .ok 4 ∧
    (distinctCombosPresent d4 ["c", "r"]).length = 3 ∧
    ¬ ((plot_result d4 "x" [] [] [] [] ⟨some "c", some "r", none⟩ [] [] {}).map
      (fun p => p.1.axes.length) =
      .ok (distinctCombosPresent d4 ["c", "r"]).length) :=
  ⟨by decide, by decide, by decide⟩

/-- C4 as amended: the number of regions equals the number of grid
combinations the layout engine enumerates — the number of distinct values of
the single configured key, or the full product of per-key distinct-value
counts when both keys are configured (so absent combinations still get a
region); each region's subset is the exact-match filter of the original
dataset by the recovered combination, and the concatenation of all subsets
is a permutation of the dataset's rows (no row lost or duplicated). -/
theorem C4_amended_partition (data : DataFrame) (x : String)
    (yDots yLine : List String) (dotsOpts lineOpts : List (String × Style))
    (fo : FacetOptions) (shareOpts : List (String × Bool))
    (scaleOpts : List (String × String)) (figOpts : FigOptions)
    (fig : Figure) (st : Store) (axes : List Axes) (ids : List Nat)
    (s1 : Store) (dts : List Dtype)
    (h : plot_result data x yDots yLine dotsOpts lineOpts fo shareOpts
      scaleOpts figOpts = .ok (fig, st))
    (hax : soPlotFacet data x fo = .ok axes)
    (hkeys : (facetBy fo).isEmpty = false)
    (hdts : exceptMapM data.dtypeOf (facetBy fo) = .ok dts)
    (hrc : recoverCombos dts axes = .ok (facetCombosOf data fo))
    (hbs : buildSubsets [data] data (facetBy fo) axes = .ok (ids, s1)) :
    fig.axes.length = (facetCombosOf data fo).length ∧
    (∀ c, fo.col = some c → fo.row = none →
      fig.axes.length = (levelsOf (colValsD data c)).length) ∧
    (∀ c r, fo.col = some c → fo.row = some r →
      fig.axes.length = (levelsOf (colValsD data r)).length *
        (levelsOf (colValsD data c)).length) ∧
    ∃ subs : List DataFrame, s1 = [data] ++ subs ∧
      subs.map (fun df => df.rows) = (facetCombosOf data fo).map
        (fun combo => data.rows.filter (matchCombo data (facetBy fo) combo)) ∧
      ((subs.map (fun df => df.rows)).flatten).Perm data.rows := by
  obtain ⟨axes', ids', s1', axes1, axes2, s2, lastAx, hax', hsub, hdr, hinf,
    hlast, hfig, hst⟩ :=
    plot_result_anatomy data x yDots yLine dotsOpts lineOpts fo shareOpts
      scaleOpts figOpts fig st h
  have haxeq := hax.symm.trans hax'
  cases haxeq
  rcases hsub with ⟨hemp, _, _⟩ | ⟨_, hbs'⟩
  · rw [hemp] at hkeys; cases hkeys
  · have hpair := hbs.symm.trans hbs'
    cases hpair
    have hsubOr : ((facetBy fo).isEmpty = true ∧ ids = [0] ∧ s1 = [data]) ∨
        ((facetBy fo).isEmpty = false ∧
          buildSubsets [data] data (facetBy fo) axes = .ok (ids, s1)) :=
      Or.inr ⟨hkeys, hbs⟩
    have hida : ids.length = axes.length :=
      ids_length_eq data fo axes ids s1
        (fun hcr => soPlotFacet_no_facets data x fo axes hcr.1 hcr.2 hax) hsubOr
    have h1a : axes1.length = axes.length := by
      rw [drawAll_length s1 x yDots yLine dotsOpts lineOpts _ _ hdr,
        List.length_zip, hida, min_self]
    have h2a : axes2.length = axes.length := by
      rw [(infAll_spec scaleOpts x yDots dotsOpts (axes1.zip ids) s1 axes2 s2
        hinf).1, List.length_zip, hida, h1a, min_self]
    have hfiglen : fig.axes.length = axes.length := by
      rw [hfig]
      exact h2a
    have hlenc : axes.length = (facetCombosOf data fo).length := by
      rcases soPlotFacet_combos_len data x fo axes hax with hl | hnn
      · exact hl
      · rw [(facetBy_empty_iff fo).mpr hnn] at hkeys
        cases hkeys
    obtain ⟨hkc, hkr⟩ := soPlotFacet_keys_cols data x fo axes hax
    refine ⟨by rw [hfiglen, hlenc], ?_, ?_, ?_⟩
    · intro c hco hro
      rw [hfiglen, hlenc]
      unfold facetCombosOf
      rw [hco, hro]
      simp
    · intro c r hco hro
      rw [hfiglen, hlenc]
      unfold facetCombosOf
      rw [hco, hro]
      simp only []
      rw [gridCombos_eq]
      simp [List.length_product]
    · obtain ⟨dts', combos', hdts', hrec', hcl, hids, subs, hs1, hslen, hget⟩ :=
        buildSubsets_spec _ _ _ _ _ _ hbs
      have hdtseq := hdts.symm.trans hdts'
      cases hdtseq
      have hcombeq := hrc.symm.trans hrec'
      cases hcombeq
      have hmapeq : subs.map (fun df => df.rows) = (facetCombosOf data fo).map
          (fun combo => data.rows.filter (matchCombo data (facetBy fo) combo)) := by
        apply List.ext_get
        · simp [hslen]
        · intro i h1 h2
          have hi1 : i < subs.length := by simpa using h1
          have hq := hget i (by omega) hi1
          have heq := queryCombo_ok_inv _ _ _ _ hq
          simp only [List.get_eq_getElem, List.getElem_map]
          show subs[i].rows = _
          have hgi : subs[i] = subs.get ⟨i, hi1⟩ := rfl
          rw [hgi, heq]
          rfl
      refine ⟨subs, hs1, hmapeq, ?_⟩
      rw [hmapeq]
      exact perm_flatten_filters data.rows (facetCombosOf data fo)
        (fun combo row => matchCombo data (facetBy fo) combo row)
        (fun row hrow => facetCombos_countP data fo hkc hkr hkeys row hrow)

/-- A subset frame of `d4` with the given rows. -/
def d4sub (rows : List (List EVal)) : DataFrame :=
  ⟨["c", "r", "x", "a"], [.numT, .numT, .numT, .numT], rows⟩

/-- C4 amended witness: on `d4` with both keys configured, the run yields 4
regions (2 x 2 grid), each subset is the exact-match filter, and the subsets
concatenate to a permutation of the rows. -/
theorem C4_amended_partition_witness :
    (figOf (plot_result d4 "x" [] [] [] [] ⟨some "c", some "r", none⟩ [] []
        {})).axes.length =
      (facetCombosOf d4 ⟨some "c", some "r", none⟩).length ∧
    (∀ c, (⟨some "c", some "r", none⟩ : FacetOptions).col = some c →
      (⟨some "c", some "r", none⟩ : FacetOptions).row = none →
      (figOf (plot_result d4 "x" [] [] [] [] ⟨some "c", some "r", none⟩ [] []
        {})).axes.length = (levelsOf (colValsD d4 c)).length) ∧
    (∀ c r, (⟨some "c", some "r", none⟩ : FacetOptions).col = some c →
      (⟨some "c", some "r", none⟩ : FacetOptions).row = some r →
      (figOf (plot_result d4 "x" [] [] [] [] ⟨some "c", some "r", none⟩ [] []
        {})).axes.length =
        (levelsOf (colValsD d4 r)).length * (levelsOf (colValsD d4 c)).length) ∧
    ∃ subs : List DataFrame,
      ([d4, d4sub [[.num 2, .num 1, .num 0, .num 0]],
        d4sub [[.num 1, .num 1, .num 0, .num 0]], d4sub [],
        d4sub [[.num 1, .num 2, .num 0, .num 0]]] : Store) = [d4] ++ subs ∧
      subs.map (fun df => df.rows) =
        (facetCombosOf d4 ⟨some "c", some "r", none⟩).map
          (fun combo => d4.rows.filter
            (matchCombo d4 (facetBy ⟨some "c", some "r", none⟩) combo)) ∧
      ((subs.map (fun df => df.rows)).flatten).Perm d4.rows := by
  obtain ⟨⟨fig, st⟩, hp⟩ :
      ∃ p, plot_result d4 "x" [] [] [] [] ⟨some "c", some "r", none⟩ [] [] {} =
        .ok p := ⟨_, rfl⟩
  rw [hp]
  exact C4_amended_partition d4 "x" [] [] [] [] ⟨some "c", some "r", none⟩ []
    [] {} fig st
    [mkAxes "2 | 1", mkAxes "1 | 1", mkAxes "2 | 2", mkAxes "1 | 2"]
    [1, 2, 3, 4]
    [d4, d4sub [[.num 2, .num 1, .num 0, .num 0]],
      d4sub [[.num 1, .num 1, .num 0, .num 0]], d4sub [],
      d4sub [[.num 1, .num 2, .num 0, .num 0]]]
    [.numT, .numT] hp (by decide) (by decide) (by decide) (by decide) (by decide)

/-- C9 witness: a facet value containing the title separator " | " cannot be
recovered into one key column; the conversion error propagates. -/
theorem C9_cast_error_propagates_witness :
    plot_result d9 "x" [] [] [] [] ⟨some "c", none, none⟩ [] [] {} =
      .error (.valueError "columns passed, passed data had different length") :=
  C9_cast_error_propagates d9 "x" [] [] [] [] ⟨some "c", none, none⟩ [] [] {}
    [mkAxes "a | b"] [.strT] _ rfl rfl rfl rfl

end PlotResult
